import Mathlib

/-!
# Mython runtime: object model, method resolution and comparison protocol

A shallow embedding of `src/mython/runtime.cpp`.

* Values of type `Number`, `String`, `Bool` are immutable, so a reference to one
  is represented by the value it holds.
* A `Class` is immutable after construction and its parent chain is a finite
  list of ancestors, so the parent pointer is an optional sub-term.
* A `ClassInstance` has identity (its address `this`) and an immutable
  reference `cls_`; its mutable field table `closure_` lives in the heap of the
  `World`, keyed by the address.
* A C++ call that may throw and may change the reachable state is a function
  `World → Except Failure α × World`: state changes made before a throw persist.
* Method bodies (`Executable::Execute`) are external to the runtime; they are a
  parameter `Execute` of every operation that can reach a body.
-/

namespace runtime

/-- Identity of a heap object: the address held in `this`. -/
abbrev Addr := Nat

/-- Modelled from the spec: `struct Method` is declared in runtime.h, which is not among the
sources. By the data model a method has a name, an ordered list of formal parameter names and
a body; runtime.cpp reads them as `name`, `formal_params` and `body`. -/
structure Method (Stmt : Type) where
  name : String
  formal_params : List String
  body : Stmt
deriving DecidableEq, Repr

/-- Modelled from the spec: `class Class` is declared in runtime.h, which is not among the
sources. By the data model and the constructor in runtime.cpp a class has `name_`, the
ordered list `methods_` and the nullable pointer `parent_` to its parent class; the parent
chain is acyclic. -/
inductive Class (Stmt : Type) where
  | mk (name_ : String) (methods_ : List (Method Stmt)) (parent_ : Option (Class Stmt))

namespace Class

variable {Stmt : Type}

/-- Field `name_`. -/
def name_ : Class Stmt → String
  | .mk n _ _ => n

/-- Field `methods_`. -/
def methods_ : Class Stmt → List (Method Stmt)
  | .mk _ m _ => m

/-- Field `parent_`. -/
def parent_ : Class Stmt → Option (Class Stmt)
  | .mk _ _ p => p

/-- `Class::GetMethod`: `find_if` over the own methods by name, then the parent, else null. -/
def GetMethod : Class Stmt → String → Option (Method Stmt)
  | .mk _ methods_ parent_, name =>
    match methods_.find? (fun method => method.name == name) with
    | some it => some it
    | none =>
      match parent_ with
      | some parent =>
        match GetMethod parent name with
        | some parent_method_ptr => some parent_method_ptr
        | none => none
      | none => none

/-- `Class::GetName`. -/
def GetName (c : Class Stmt) : String := c.name_

/-- The classes on the parent chain of a class, nearest first, the class itself included. -/
def chain : Class Stmt → List (Class Stmt)
  | .mk n m none => [.mk n m none]
  | .mk n m (some p) => .mk n m (some p) :: chain p

/-- A class declares a name when one of its own methods carries it. -/
def declares (c : Class Stmt) (name : String) : Prop :=
  ∃ m ∈ c.methods_, m.name = name

instance (c : Class Stmt) (name : String) : Decidable (c.declares name) :=
  inferInstanceAs (Decidable (∃ m ∈ c.methods_, m.name = name))

end Class

/-- Modelled from the spec: `class ClassInstance` is declared in runtime.h, which is not among
the sources. A reference to a live instance is its address and the class it was built from
(`cls_`, fixed for the lifetime of the instance); the field table `closure_` of the instance
is kept in the heap of the `World`. -/
structure ClassInstance (Stmt : Type) where
  this : Addr
  cls_ : Class Stmt

/-- Modelled from the spec: the object hierarchy is declared in runtime.h, which is not among
the sources. By the data model a runtime value is a Number, String, Bool, Class or
ClassInstance; this is what a non-null `Object*` points to, by dynamic type. -/
inductive Object (Stmt : Type) where
  | Number (value_ : Int)
  | String (value_ : String)
  | Bool (value_ : Bool)
  | Class (cls : runtime.Class Stmt)
  | ClassInstance (inst : runtime.ClassInstance Stmt)

/-- Modelled from the spec: `class ObjectHolder` is declared in runtime.h, which is not among
the sources; it is a nullable reference to one runtime value, the pointer `data_`. -/
structure ObjectHolder (Stmt : Type) where
  data_ : Option (Object Stmt)

namespace ObjectHolder

variable {Stmt : Type}

/-- `ObjectHolder::None`. -/
def None : ObjectHolder Stmt := ⟨none⟩

/-- `ObjectHolder::Share`: a non-owning holder of an existing object. -/
def Share (object : Object Stmt) : ObjectHolder Stmt := ⟨some object⟩

/-- `ObjectHolder::Get`. -/
def Get (h : ObjectHolder Stmt) : Option (Object Stmt) := h.data_

/-- `ObjectHolder::operator bool`. -/
def toBool (h : ObjectHolder Stmt) : Bool := h.Get.isSome

/-- Modelled from the spec: `TryAs<Number>` is declared in runtime.h, which is not among the
sources; it is the dynamic cast of the held pointer, null unless a Number is held. The
Number is represented by its value. -/
def TryAsNumber (h : ObjectHolder Stmt) : Option Int :=
  match h.Get with
  | some (.Number v) => some v
  | _ => none

/-- Modelled from the spec: `TryAs<String>`, see `TryAsNumber`. -/
def TryAsString (h : ObjectHolder Stmt) : Option String :=
  match h.Get with
  | some (.String v) => some v
  | _ => none

/-- Modelled from the spec: `TryAs<Bool>`, see `TryAsNumber`. -/
def TryAsBool (h : ObjectHolder Stmt) : Option Bool :=
  match h.Get with
  | some (.Bool v) => some v
  | _ => none

/-- Modelled from the spec: `TryAs<ClassInstance>`, see `TryAsNumber`. -/
def TryAsClassInstance (h : ObjectHolder Stmt) : Option (ClassInstance Stmt) :=
  match h.Get with
  | some (.ClassInstance i) => some i
  | _ => none

end ObjectHolder

/-- Modelled from the spec: `Closure` is declared in runtime.h, which is not among the sources;
the glossary calls it a mapping from identifiers to holders. Kept as an association list with
at most one entry per key. -/
abbrev Closure (Stmt : Type) := List (String × ObjectHolder Stmt)

/-- Lookup of a key in a closure. -/
def Closure.find {Stmt : Type} (c : Closure Stmt) (key : String) : Option (ObjectHolder Stmt) :=
  match c with
  | [] => none
  | (k, v) :: rest => if k == key then some v else Closure.find rest key

/-- The assignment `closure[key] = value`: overwrite the entry of the key, or add one. -/
def Closure.assign {Stmt : Type} (c : Closure Stmt) (key : String) (value : ObjectHolder Stmt) :
    Closure Stmt :=
  match c with
  | [] => [(key, value)]
  | (k, v) :: rest =>
    if k == key then (k, value) :: rest else (k, v) :: Closure.assign rest key value

/-- One insertion into a `std::ostream`. -/
inductive Output where
  | text (s : String)
  | number (v : Int)
  | pointer (a : Addr)
deriving DecidableEq, Repr

/-- The ways a call can fail to return. -/
inductive Failure where
  | runtime_error (what : String)
  | null_dereference
  | fuel_exhausted
  | assertion_failed
deriving DecidableEq, Repr

/-- The mutable state reachable from a call: the output stream written by `Print`, the
execution context, and the field tables of the live instances. -/
structure World (Stmt Ctx : Type) where
  os : List Output
  context : Ctx
  heap : List (Addr × Closure Stmt)

/-- Insertion `os << item`. -/
def World.write {Stmt Ctx : Type} (w : World Stmt Ctx) (item : Output) : World Stmt Ctx :=
  { w with os := w.os ++ [item] }

/-- Result of a call: a returned value or a raised failure, with the state it leaves. -/
abbrev Outcome (Stmt Ctx α : Type) := Except Failure α × World Stmt Ctx

/-- Sequencing: continue with the returned value, or propagate the failure. -/
def Outcome.andThen {Stmt Ctx α β : Type} (r : Outcome Stmt Ctx α)
    (k : α → World Stmt Ctx → Outcome Stmt Ctx β) : Outcome Stmt Ctx β :=
  match r with
  | (.ok a, w) => k a w
  | (.error e, w) => (.error e, w)

/-- Modelled from the spec: `Executable` is declared in runtime.h, which is not among the
sources. It is the external capability `Execute(closure, context) -> Holder`; an execution
may change the reachable state and may raise. -/
abbrev Executor (Stmt Ctx : Type) :=
  Stmt → Closure Stmt → World Stmt Ctx → Outcome Stmt Ctx (ObjectHolder Stmt)

/-- `IsTrue`: three successive tests, each overwriting `result` when its cast succeeds. -/
def IsTrue {Stmt : Type} (object : ObjectHolder Stmt) : Bool :=
  let result := false
  let result :=
    match object.TryAsBool with
    | some b => b == true
    | none => result
  let result :=
    match object.TryAsNumber with
    | some n => n != 0
    | none => result
  let result :=
    match object.TryAsString with
    | some s => s != ""
    | none => result
  result

namespace ClassInstance

variable {Stmt Ctx : Type}

/-- `ClassInstance::HasMethod`. -/
def HasMethod (self : ClassInstance Stmt) (method : String) (argument_count : Nat) : Bool :=
  let method_ptr := self.cls_.GetMethod method
  match self.cls_.GetMethod method, method_ptr with
  | some _, some m => if m.formal_params.length == argument_count then true else false
  | _, _ => false

/-- The loop of `ClassInstance::Call` binding `formal_params[i]` to `actual_args[i]` for
every index of `actual_args`; under the guard of `Call` both lists have the same length. -/
def bindArgs (formal_params : List String) (actual_args : List (ObjectHolder Stmt))
    (local_closure : Closure Stmt) : Closure Stmt :=
  match formal_params, actual_args with
  | p :: ps, a :: rest => bindArgs ps rest (Closure.assign local_closure p a)
  | _, _ => local_closure

/-- The local closure `ClassInstance::Call` builds before executing the body. -/
def localClosure (self : ClassInstance Stmt) (formal_params : List String)
    (actual_args : List (ObjectHolder Stmt)) : Closure Stmt :=
  bindArgs formal_params actual_args
    (Closure.assign [] "self" (ObjectHolder.Share (.ClassInstance self)))

/-- `ClassInstance::Call`. Under the guard `HasMethod` the second lookup finds the method, so
the branch for a null `method_ptr` is never taken. -/
def Call (Execute : Executor Stmt Ctx) (self : ClassInstance Stmt) (method : String)
    (actual_args : List (ObjectHolder Stmt)) (w : World Stmt Ctx) :
    Outcome Stmt Ctx (ObjectHolder Stmt) :=
  if self.HasMethod method actual_args.length then
    match self.cls_.GetMethod method with
    | some method_ptr =>
      Execute method_ptr.body (self.localClosure method_ptr.formal_params actual_args) w
    | none => (.error .null_dereference, w)
  else
    (.error (.runtime_error "No such method"), w)

/-- `ClassInstance::Print`; `virtualPrint` is the virtual call `Object::Print` made on the
object that `__str__` returned. -/
def Print (Execute : Executor Stmt Ctx)
    (virtualPrint : Object Stmt → World Stmt Ctx → Outcome Stmt Ctx Unit)
    (self : ClassInstance Stmt) (w : World Stmt Ctx) : Outcome Stmt Ctx Unit :=
  if self.HasMethod "__str__" 0 == true then
    (self.Call Execute "__str__" [] w).andThen fun r w1 =>
      match r.Get with
      | some object => virtualPrint object w1
      | none => (.error .null_dereference, w1)
  else
    (.ok (), w.write (.pointer self.this))

/-- The constructor `ClassInstance::ClassInstance(cls)`, run at address `this`: the field
table of the new instance is created with the single entry `self`. -/
def new (cls : Class Stmt) (this : Addr) (w : World Stmt Ctx) :
    ClassInstance Stmt × World Stmt Ctx :=
  let self : ClassInstance Stmt := ⟨this, cls⟩
  let closure_ := Closure.assign [] "self" (ObjectHolder.Share (.ClassInstance self))
  (self, { w with heap := (this, closure_) :: w.heap.filter (fun e => e.1 != this) })

/-- `ClassInstance::Fields`: the field table `closure_` of the instance. -/
def Fields (self : ClassInstance Stmt) (w : World Stmt Ctx) : Closure Stmt :=
  match w.heap.find? (fun e => e.1 == self.this) with
  | some e => e.2
  | none => []

end ClassInstance

/-- `Class::Print`. -/
def Class.Print {Stmt Ctx : Type} (self : Class Stmt) (w : World Stmt Ctx) :
    Outcome Stmt Ctx Unit :=
  (.ok (), (w.write (.text "Class ")).write (.text self.name_))

/-- `Bool::Print`. -/
def Bool.Print {Stmt Ctx : Type} (value : Bool) (w : World Stmt Ctx) : Outcome Stmt Ctx Unit :=
  (.ok (), w.write (.text (if value then "True" else "False")))

/-- Modelled from the spec: `Number::Print` is declared in runtime.h, which is not among the
sources; the value wrapper inserts its value into the stream. -/
def Number.Print {Stmt Ctx : Type} (value : Int) (w : World Stmt Ctx) : Outcome Stmt Ctx Unit :=
  (.ok (), w.write (.number value))

/-- Modelled from the spec: `String::Print` is declared in runtime.h, which is not among the
sources; the value wrapper inserts its value into the stream. -/
def String.Print {Stmt Ctx : Type} (value : String) (w : World Stmt Ctx) :
    Outcome Stmt Ctx Unit :=
  (.ok (), w.write (.text value))

/-- The virtual call `object->Print(os, context)`, dispatched on the dynamic type of the
object. The nesting of virtual `Print` calls is bounded by `fuel`. -/
def Object.Print {Stmt Ctx : Type} (Execute : Executor Stmt Ctx) :
    Nat → Object Stmt → World Stmt Ctx → Outcome Stmt Ctx Unit
  | 0, _, w => (.error .fuel_exhausted, w)
  | _ + 1, .Number v, w => Number.Print v w
  | _ + 1, .String s, w => String.Print s w
  | _ + 1, .Bool b, w => Bool.Print b w
  | _ + 1, .Class c, w => Class.Print c w
  | fuel + 1, .ClassInstance self, w =>
    ClassInstance.Print Execute (Object.Print Execute fuel) self w

/-- The comparators `Equal` and `Less` pass to `CompareValuableObjectIfPossible`:
`std::equal_to` and `std::less`. -/
inductive Comparator where
  | equal_to
  | less
deriving DecidableEq, Repr

/-- Application of a comparator to two `int` values. -/
def Comparator.onNumber (cmp : Comparator) (a b : Int) : Bool :=
  match cmp with
  | .equal_to => decide (a = b)
  | .less => decide (a < b)

/-- Application of a comparator to two `std::string` values: `less` is the lexicographic
order of the character sequences. -/
def Comparator.onString (cmp : Comparator) (a b : String) : Bool :=
  match cmp with
  | .equal_to => decide (a = b)
  | .less => decide (a.data < b.data)

/-- Application of a comparator to two `bool` values: `less` puts false before true. -/
def Comparator.onBool (cmp : Comparator) (a b : Bool) : Bool :=
  match cmp with
  | .equal_to => decide (a = b)
  | .less => !a && b

/-- Modelled from the spec: `CompareValuableObjectIfPossible` is declared in runtime.h, which
is not among the sources. By the spec, operands that are value types of the same kind
(Number/Number, String/String, Bool/Bool) are compared by value, in the natural order
(numeric, lexicographic, false before true); for any other pair there is no result. -/
def CompareValuableObjectIfPossible {Stmt : Type} (lhs rhs : ObjectHolder Stmt)
    (cmp : Comparator) : Option Bool :=
  match lhs.TryAsNumber, rhs.TryAsNumber with
  | some a, some b => some (cmp.onNumber a b)
  | _, _ =>
    match lhs.TryAsString, rhs.TryAsString with
    | some a, some b => some (cmp.onString a b)
    | _, _ =>
      match lhs.TryAsBool, rhs.TryAsBool with
      | some a, some b => some (cmp.onBool a b)
      | _, _ => none

section Comparison

variable {Stmt Ctx : Type}

/-- `Equal`. -/
def Equal (Execute : Executor Stmt Ctx) (lhs rhs : ObjectHolder Stmt) (w : World Stmt Ctx) :
    Outcome Stmt Ctx Bool :=
  match lhs.TryAsClassInstance with
  | some class_instance_ptr =>
    match class_instance_ptr.Call Execute "__eq__" [rhs] w with
    | (.ok r, w1) => (.ok (IsTrue r), w1)
    | (.error e, w1) => (.error e, w1)
  | none =>
    match CompareValuableObjectIfPossible lhs rhs .equal_to with
    | some result => (.ok result, w)
    | none =>
      if !lhs.toBool && !rhs.toBool then (.ok true, w)
      else (.error (.runtime_error "Cannot compare objects for equality"), w)

/-- `Less`. -/
def Less (Execute : Executor Stmt Ctx) (lhs rhs : ObjectHolder Stmt) (w : World Stmt Ctx) :
    Outcome Stmt Ctx Bool :=
  match lhs.TryAsClassInstance with
  | some class_instance_ptr =>
    match class_instance_ptr.Call Execute "__lt__" [rhs] w with
    | (.ok r, w1) => (.ok (IsTrue r), w1)
    | (.error e, w1) => (.error e, w1)
  | none =>
    match CompareValuableObjectIfPossible lhs rhs .less with
    | some result => (.ok result, w)
    | none => (.error (.runtime_error "Cannot compare objects for less"), w)

/-- `NotEqual`: `!Equal(lhs, rhs, context)`. -/
def NotEqual (Execute : Executor Stmt Ctx) (lhs rhs : ObjectHolder Stmt) (w : World Stmt Ctx) :
    Outcome Stmt Ctx Bool :=
  match Equal Execute lhs rhs w with
  | (.ok b, w1) => (.ok (!b), w1)
  | (.error e, w1) => (.error e, w1)

/-- `LessOrEqual`: `Less(lhs, rhs, context) || Equal(lhs, rhs, context)`, the right operand
of `||` being evaluated only when the left one is false. -/
def LessOrEqual (Execute : Executor Stmt Ctx) (lhs rhs : ObjectHolder Stmt)
    (w : World Stmt Ctx) : Outcome Stmt Ctx Bool :=
  match Less Execute lhs rhs w with
  | (.ok true, w1) => (.ok true, w1)
  | (.ok false, w1) =>
    match Equal Execute lhs rhs w1 with
    | (.ok b, w2) => (.ok b, w2)
    | (.error e, w2) => (.error e, w2)
  | (.error e, w1) => (.error e, w1)

/-- `Greater`: `!LessOrEqual(lhs, rhs, context)`. -/
def Greater (Execute : Executor Stmt Ctx) (lhs rhs : ObjectHolder Stmt) (w : World Stmt Ctx) :
    Outcome Stmt Ctx Bool :=
  match LessOrEqual Execute lhs rhs w with
  | (.ok b, w1) => (.ok (!b), w1)
  | (.error e, w1) => (.error e, w1)

/-- `GreaterOrEqual`: `!Less(lhs, rhs, context)`. -/
def GreaterOrEqual (Execute : Executor Stmt Ctx) (lhs rhs : ObjectHolder Stmt)
    (w : World Stmt Ctx) : Outcome Stmt Ctx Bool :=
  match Less Execute lhs rhs w with
  | (.ok b, w1) => (.ok (!b), w1)
  | (.error e, w1) => (.error e, w1)

end Comparison


/-- Negation of the boolean result of an operation; a raised error is passed on. -/
def Outcome.negate {Stmt Ctx : Type} (r : Outcome Stmt Ctx Bool) : Outcome Stmt Ctx Bool :=
  r.andThen fun b w => (.ok (!b), w)

/-- The derived comparisons as the specification words them, over the two base operations
`Equal` and `Less`: "NotEqual = not Equal; LessOrEqual = Less or Equal; GreaterOrEqual = not
Less; Greater = not LessOrEqual". -/
structure DerivedSpec (Stmt Ctx : Type) where
  notEqual : ObjectHolder Stmt → ObjectHolder Stmt → World Stmt Ctx → Outcome Stmt Ctx Bool
  lessOrEqual : ObjectHolder Stmt → ObjectHolder Stmt → World Stmt Ctx → Outcome Stmt Ctx Bool
  greaterOrEqual : ObjectHolder Stmt → ObjectHolder Stmt → World Stmt Ctx → Outcome Stmt Ctx Bool
  greater : ObjectHolder Stmt → ObjectHolder Stmt → World Stmt Ctx → Outcome Stmt Ctx Bool

/-- The specification of the derived comparisons for given base operations; in "Less or
Equal" the second operand is evaluated, in the state the first one left, only when the first
returned false. -/
def derivedSpec {Stmt Ctx : Type}
    (equal less : ObjectHolder Stmt → ObjectHolder Stmt → World Stmt Ctx →
      Outcome Stmt Ctx Bool) : DerivedSpec Stmt Ctx :=
  let lessOrEqual := fun lhs rhs w =>
    (less lhs rhs w).andThen fun b w1 => if b then (.ok true, w1) else equal lhs rhs w1
  { notEqual := fun lhs rhs w => (equal lhs rhs w).negate
    lessOrEqual := lessOrEqual
    greaterOrEqual := fun lhs rhs w => (less lhs rhs w).negate
    greater := fun lhs rhs w => (lessOrEqual lhs rhs w).negate }
/-- `ObjectHolder::AssertIsValid`: `assert(data_ != nullptr)`. The macro `NDEBUG` is set by
the build and is a parameter: when it is defined the assertion is compiled out and nothing is
checked; otherwise a null `data_` fails the assertion and ends the call. -/
def ObjectHolder.AssertIsValid {Stmt : Type} (NDEBUG : Bool) (h : ObjectHolder Stmt) :
    Except Failure Unit :=
  if NDEBUG then .ok ()
  else if h.data_.isSome then .ok ()
  else .error .assertion_failed

/-- `ObjectHolder::operator*`: `AssertIsValid(); return *Get();`. The reference returned is
represented by the pointer `Get()` it is formed from: the held object, or null; nothing but
the assertion stands in the way of a null pointer. -/
def ObjectHolder.deref {Stmt : Type} (NDEBUG : Bool) (h : ObjectHolder Stmt) :
    Except Failure (Option (Object Stmt)) :=
  match h.AssertIsValid NDEBUG with
  | .error e => .error e
  | .ok () => .ok h.Get

/-- `ObjectHolder::operator->`: `AssertIsValid(); return Get();`, the pointer `Get()`, which
is null for a null holder that passed `AssertIsValid`. -/
def ObjectHolder.arrow {Stmt : Type} (NDEBUG : Bool) (h : ObjectHolder Stmt) :
    Except Failure (Option (Object Stmt)) :=
  match h.AssertIsValid NDEBUG with
  | .error e => .error e
  | .ok () => .ok h.Get

/-- The operations of an instance that act on the state: `HasMethod`, `Print` (with the
bound on nested virtual `Print` calls) and `Call`. -/
inductive Operation (Stmt : Type) where
  | HasMethod (method : String) (argument_count : Nat)
  | Print (fuel : Nat)
  | Call (method : String) (actual_args : List (ObjectHolder Stmt))

/-- The state an operation of the instance leaves; `HasMethod` is a `const` member function
and leaves the state as it is. -/
def ClassInstance.perform {Stmt Ctx : Type} (Execute : Executor Stmt Ctx)
    (self : ClassInstance Stmt) (op : Operation Stmt) (w : World Stmt Ctx) : World Stmt Ctx :=
  match op with
  | .HasMethod _ _ => w
  | .Print fuel => (Object.Print Execute fuel (.ClassInstance self) w).2
  | .Call method actual_args => (self.Call Execute method actual_args w).2

/-- The state reached from a state by a sequence of operations of the instance. -/
def ClassInstance.performAll {Stmt Ctx : Type} (Execute : Executor Stmt Ctx)
    (self : ClassInstance Stmt) (ops : List (Operation Stmt)) (w : World Stmt Ctx) :
    World Stmt Ctx :=
  ops.foldl (fun w1 op => self.perform Execute op w1) w

/-- Both holders hold built-in values of the same kind: Number/Number, String/String or
Bool/Bool. -/
def sameKind {Stmt : Type} (lhs rhs : ObjectHolder Stmt) : Bool :=
  match lhs.Get, rhs.Get with
  | some (.Number _), some (.Number _) => true
  | some (.String _), some (.String _) => true
  | some (.Bool _), some (.Bool _) => true
  | _, _ => false


namespace Sample

/-- A small statement language standing in for externally supplied method bodies. -/
inductive Stmt where
  | returnNone
  | returnNumber (n : Int)
  | returnString (s : String)
  | returnBool (b : Bool)
  | returnVariable (name : String)
  | callSelf (method : String)
  | raise (what : String)
deriving DecidableEq, Repr

/-- Executes a sample statement. Every execution of a body adds one to the context, which
thereby counts the bodies executed; `fuel` bounds the nesting of method calls. -/
def Execute : Nat → Executor Stmt Nat
  | 0, _, _, w => (.error .fuel_exhausted, w)
  | fuel + 1, stmt, closure, w =>
    let w1 := { w with context := w.context + 1 }
    match stmt with
    | .returnNone => (.ok ObjectHolder.None, w1)
    | .returnNumber n => (.ok ⟨some (.Number n)⟩, w1)
    | .returnString s => (.ok ⟨some (.String s)⟩, w1)
    | .returnBool b => (.ok ⟨some (.Bool b)⟩, w1)
    | .returnVariable name =>
      match Closure.find closure name with
      | some h => (.ok h, w1)
      | none => (.error (.runtime_error "Unknown variable"), w1)
    | .callSelf method =>
      match Closure.find closure "self" with
      | some h =>
        match h.TryAsClassInstance with
        | some self => self.Call (Execute fuel) method [] w1
        | none => (.error (.runtime_error "Not an instance"), w1)
      | none => (.error (.runtime_error "Unknown variable"), w1)
    | .raise what => (.error (.runtime_error what), w1)

/-- Class Grandparent: `hello()` and `f(x)`. -/
def Grandparent : Class Stmt :=
  .mk "Grandparent"
    [⟨"hello", [], .returnString "hello"⟩, ⟨"f", ["x"], .returnNumber 1⟩] none

/-- Class Parent(Grandparent): overrides `f(x)`, adds the comparison hooks. -/
def Parent : Class Stmt :=
  .mk "Parent"
    [⟨"f", ["x"], .returnNumber 2⟩, ⟨"__eq__", ["other"], .returnBool true⟩,
     ⟨"__lt__", ["other"], .returnNumber 0⟩] (some Grandparent)

/-- Class Child(Parent): overrides `f(x)`, adds `__str__()`, `g()` calling a method that no
class declares, and `h(self)` whose parameter repeats the name `self`. -/
def Child : Class Stmt :=
  .mk "Child"
    [⟨"f", ["x"], .returnNumber 3⟩, ⟨"__str__", [], .returnString "child"⟩,
     ⟨"g", [], .callSelf "missing"⟩, ⟨"h", ["self"], .returnVariable "self"⟩,
     ⟨"id", ["x"], .returnVariable "x"⟩]
    (some Parent)

/-- Class Ordered: `__lt__(other)` returns True, `__eq__(other)` raises. -/
def Ordered : Class Stmt :=
  .mk "Ordered"
    [⟨"__lt__", ["other"], .returnBool true⟩, ⟨"__eq__", ["other"], .raise "boom"⟩,
     ⟨"__str__", [], .raise "never printed"⟩] none

/-- Class Labelled: its `__str__(x)` declares one parameter. -/
def Labelled : Class Stmt :=
  .mk "Labelled" [⟨"__str__", ["x"], .returnString "label"⟩] none

/-- Class Shape: `area(w, h)` with two parameters. -/
def Shape : Class Stmt :=
  .mk "Shape" [⟨"area", ["w", "h"], .returnNumber 6⟩] none

/-- Class Circle(Shape): overrides `area(r)` with one parameter. -/
def Circle : Class Stmt :=
  .mk "Circle" [⟨"area", ["r"], .returnNumber 3⟩] (some Shape)

/-- An instance of Circle at address 4. -/
def circle : ClassInstance Stmt := ⟨4, Circle⟩

/-- An instance of Labelled at address 5. -/
def labelled : ClassInstance Stmt := ⟨5, Labelled⟩

/-- An instance of Ordered at address 6. -/
def ordered : ClassInstance Stmt := ⟨6, Ordered⟩

/-- An instance of Child at address 7. -/
def child : ClassInstance Stmt := ⟨7, Child⟩

/-- An instance of Parent at address 8. -/
def parent : ClassInstance Stmt := ⟨8, Parent⟩

/-- An initial state: nothing written, no body executed yet. -/
def w0 : World Stmt Nat := ⟨[], 0, []⟩

end Sample

end runtime

/-! # Lexer: tokens, state and the token assertions of `src/mython/lexer.h` -/

namespace parse

/-- The token types of `namespace token_type`. -/
inductive token_type where
  | Number | Id | Char | String
  | Class | Return | If | Else | Def | Newline | Print | Indent | Dedent
  | And | Or | Not | Eq | NotEq | LessOrEq | GreaterOrEq | None | True | False | Eof
deriving DecidableEq, Repr

/-- The content of the struct of a token type: the member `value` of the four value-bearing
types, nothing for the marker types. -/
abbrev Payload (T : token_type) : Type :=
  match T with
  | .Number => Int
  | .Id => String
  | .Char => Char
  | .String => String
  | _ => Unit

/-- `Token`: the variant `TokenBase` over the token types. -/
inductive Token where
  | Number (value : Int)
  | Id (value : String)
  | Char (value : Char)
  | String (value : String)
  | Class | Return | If | Else | Def | Newline | Print | Indent | Dedent
  | And | Or | Not | Eq | NotEq | LessOrEq | GreaterOrEq | None | True | False | Eof
deriving DecidableEq, Repr

/-- The alternative a token holds. -/
def Token.type (t : Token) : token_type :=
  match t with
  | .Number _ => .Number
  | .Id _ => .Id
  | .Char _ => .Char
  | .String _ => .String
  | .Class => .Class
  | .Return => .Return
  | .If => .If
  | .Else => .Else
  | .Def => .Def
  | .Newline => .Newline
  | .Print => .Print
  | .Indent => .Indent
  | .Dedent => .Dedent
  | .And => .And
  | .Or => .Or
  | .Not => .Not
  | .Eq => .Eq
  | .NotEq => .NotEq
  | .LessOrEq => .LessOrEq
  | .GreaterOrEq => .GreaterOrEq
  | .None => .None
  | .True => .True
  | .False => .False
  | .Eof => .Eof

/-- `Token::Is<T>`: `std::holds_alternative<T>`. -/
def Token.Is (t : Token) (T : token_type) : Bool :=
  t.type == T

/-- `Token::TryAs<T>`: `std::get_if<T>`, the struct of type `T` when the token holds one. -/
def Token.TryAs (t : Token) (T : token_type) : Option (Payload T) :=
  match t, T with
  | .Number v, .Number => some v
  | .Id v, .Id => some v
  | .Char v, .Char => some v
  | .String v, .String => some v
  | .Class, .Class => some ()
  | .Return, .Return => some ()
  | .If, .If => some ()
  | .Else, .Else => some ()
  | .Def, .Def => some ()
  | .Newline, .Newline => some ()
  | .Print, .Print => some ()
  | .Indent, .Indent => some ()
  | .Dedent, .Dedent => some ()
  | .And, .And => some ()
  | .Or, .Or => some ()
  | .Not, .Not => some ()
  | .Eq, .Eq => some ()
  | .NotEq, .NotEq => some ()
  | .LessOrEq, .LessOrEq => some ()
  | .GreaterOrEq, .GreaterOrEq => some ()
  | .None, .None => some ()
  | .True, .True => some ()
  | .False, .False => some ()
  | .Eof, .Eof => some ()
  | _, _ => none

/-- The token of a type with a given content. -/
def Token.of (T : token_type) (v : Payload T) : Token :=
  match T, v with
  | .Number, v => .Number v
  | .Id, v => .Id v
  | .Char, v => .Char v
  | .String, v => .String v
  | .Class, _ => .Class
  | .Return, _ => .Return
  | .If, _ => .If
  | .Else, _ => .Else
  | .Def, _ => .Def
  | .Newline, _ => .Newline
  | .Print, _ => .Print
  | .Indent, _ => .Indent
  | .Dedent, _ => .Dedent
  | .And, _ => .And
  | .Or, _ => .Or
  | .Not, _ => .Not
  | .Eq, _ => .Eq
  | .NotEq, _ => .NotEq
  | .LessOrEq, _ => .LessOrEq
  | .GreaterOrEq, _ => .GreaterOrEq
  | .None, _ => .None
  | .True, _ => .True
  | .False, _ => .False
  | .Eof, _ => .Eof

instance (T : token_type) : DecidableEq (Payload T) := by
  cases T <;> unfold Payload <;> infer_instance

/-- `LexerError`: a `std::runtime_error` with its message. -/
structure LexerError where
  what : String
deriving DecidableEq, Repr

/-- Modelled from the spec: the data members of `Lexer` are declared in lexer.h, but the code
that gives them their meaning is in lexer.cpp, which is not among the sources. By the data
model the state holds the
text source (here the lines not yet read), the last produced token, the buffered current
line with the part of it not yet scanned, the current indentation depth in units of two
spaces, the pending Indent/Dedent delta still to be flushed, and the end-of-input flag. -/
structure Lexer where
  input_ : List (List Char)
  current_token_ : Token
  current_line_ : List Char
  cursor_ : List Char
  indent_ : Nat
  indent_number_ : Int
  is_stream_finished : Bool
deriving DecidableEq, Repr

/-- Modelled from the spec: the text source is line-decomposable; these are the lines of a
text, as successive `std::getline` calls return them. -/
def getLines : List Char → List Char → List (List Char)
  | [], acc => if acc.isEmpty then [] else [acc.reverse]
  | c :: cs, acc => if c == '\n' then acc.reverse :: getLines cs [] else getLines cs (c :: acc)

/-- Modelled from the spec: the constructor `Lexer(std::istream&)` is defined in lexer.cpp,
which is not among the sources. The state before any token is produced: nothing buffered,
depth 0, nothing pending, and the default-constructed token. -/
def Lexer.new (input : String) : Lexer :=
  { input_ := getLines input.data []
    current_token_ := .Number 0
    current_line_ := []
    cursor_ := []
    indent_ := 0
    indent_number_ := 0
    is_stream_finished := false }

/-- `Lexer::CurrentToken`. -/
def Lexer.CurrentToken (l : Lexer) : Token := l.current_token_

/-- Modelled from the spec: the reserved words class, return, if, else, def, print, and, or,
not, None, True, False and their tokens. -/
def keyword (word : String) : Option Token :=
  match word with
  | "class" => some .Class
  | "return" => some .Return
  | "if" => some .If
  | "else" => some .Else
  | "def" => some .Def
  | "print" => some .Print
  | "and" => some .And
  | "or" => some .Or
  | "not" => some .Not
  | "None" => some .None
  | "True" => some .True
  | "False" => some .False
  | _ => none

/-- Modelled from the spec: a character that may continue an identifier, a letter, a digit or
an underscore. -/
def isIdChar (c : Char) : Bool := c.isAlphanum || c == '_'

/-- Modelled from the spec: the characters recognized as single-character tokens, the
punctuation characters of the ASCII range. -/
def isPunct (c : Char) : Bool :=
  (33 ≤ c.toNat && c.toNat ≤ 47) || (58 ≤ c.toNat && c.toNat ≤ 64) ||
  (91 ≤ c.toNat && c.toNat ≤ 96) || (123 ≤ c.toNat && c.toNat ≤ 126)

/-- Modelled from the spec: the value of an integer literal, a sequence of decimal digits. -/
def digitsValue (digits : List Char) : Nat :=
  digits.foldl (fun n d => 10 * n + (d.toNat - 48)) 0

/-- Modelled from the spec: the character a standard escape sequence stands for. -/
def unescape (c : Char) : Option Char :=
  if c == 'n' then some '\n'
  else if c == 't' then some '\t'
  else if c == 'r' then some '\r'
  else if c == '"' || c == '\'' || c == '\\' then some c
  else none

/-- Modelled from the spec: a quoted string with the standard escapes, scanned up to the
closing quote; `escaped` tells that the previous character was a backslash. A line that ends
before the closing quote is a lexer error. -/
def scanString (quote : Char) : Bool → List Char → List Char →
    Except LexerError (Token × List Char)
  | _, [], _ => .error ⟨"Unterminated string"⟩
  | true, c :: cs, acc =>
    match unescape c with
    | some x => scanString quote false cs (x :: acc)
    | none => .error ⟨"Unknown escape sequence"⟩
  | false, c :: cs, acc =>
    if c == quote then .ok (.String (String.mk acc.reverse), cs)
    else if c == '\\' then scanString quote true cs acc
    else scanString quote false cs (c :: acc)

/-- Modelled from the spec: one token scanned at the start of a text that does not begin with
a space: an integer, an identifier or reserved word, a quoted string, a two-character
operator (matched before single characters), or a single character; any other character is a
lexer error. -/
def scanToken : List Char → Except LexerError (Token × List Char)
  | [] => .error ⟨"Nothing to scan"⟩
  | c :: cs =>
    if c.isDigit then
      .ok (.Number (digitsValue (c :: cs.takeWhile Char.isDigit)), cs.dropWhile Char.isDigit)
    else if c.isAlpha || c == '_' then
      let word := String.mk (c :: cs.takeWhile isIdChar)
      .ok ((keyword word).getD (.Id word), cs.dropWhile isIdChar)
    else if c == '"' || c == '\'' then
      scanString c false cs []
    else
      match cs with
      | '=' :: rest =>
        if c == '=' then .ok (.Eq, rest)
        else if c == '!' then .ok (.NotEq, rest)
        else if c == '<' then .ok (.LessOrEq, rest)
        else if c == '>' then .ok (.GreaterOrEq, rest)
        else if isPunct c then .ok (.Char c, cs)
        else .error ⟨"Unrecognized character"⟩
      | _ =>
        if isPunct c then .ok (.Char c, cs)
        else .error ⟨"Unrecognized character"⟩

/-- Modelled from the spec: `GetTokenFromBuffer` is declared in lexer.h and defined in
lexer.cpp, which is not among the sources. The rest of the buffered line is scanned left to
right; when only spaces are left the one Newline of the line is produced and the line is
dropped. -/
def Lexer.GetTokenFromBuffer (l : Lexer) : Except LexerError Token × Lexer :=
  match l.cursor_.dropWhile (fun c => c == ' ') with
  | [] =>
    (.ok .Newline, { l with current_token_ := .Newline, current_line_ := [], cursor_ := [] })
  | c :: cs =>
    match scanToken (c :: cs) with
    | .ok (t, rest) => (.ok t, { l with current_token_ := t, cursor_ := rest })
    | .error e => (.error e, l)

/-- Modelled from the spec: `CheckIndentDedent` is declared in lexer.h and defined in
lexer.cpp, which is not among the sources. Queued Indent/Dedent tokens are drained one per
call. -/
def Lexer.CheckIndentDedent (l : Lexer) : Option (Token × Lexer) :=
  if 0 < l.indent_number_ then
    some (.Indent, { l with current_token_ := .Indent, indent_number_ := l.indent_number_ - 1 })
  else if l.indent_number_ < 0 then
    some (.Dedent, { l with current_token_ := .Dedent, indent_number_ := l.indent_number_ + 1 })
  else none

/-- Modelled from the spec: `FinishedStreamProcess` is declared in lexer.h and defined in
lexer.cpp, which is not among the sources. At end of input one Dedent is produced per
outstanding indentation level, then Eof, again on every further call. -/
def Lexer.FinishedStreamProcess (l : Lexer) : Token × Lexer :=
  if 0 < l.indent_ then
    (.Dedent, { l with current_token_ := .Dedent, indent_ := l.indent_ - 1 })
  else (.Eof, { l with current_token_ := .Eof })

/-- Modelled from the spec: the comment marker strips the remainder of the line before it is
tokenized; this is the part of a line before the marker. -/
def stripComment (line : List Char) : List Char :=
  line.takeWhile (fun c => c != '#')

/-- Modelled from the spec: `GetNewLine` is declared in lexer.h and defined in lexer.cpp,
which is not among the sources. The next line is read with its comment stripped; blank and
whitespace-only lines are skipped. The result is null at end of input. -/
def GetNewLine : List (List Char) → Option (List Char × List (List Char))
  | [] => none
  | line :: rest =>
    if (stripComment line).all (fun c => c == ' ') then GetNewLine rest
    else some (stripComment line, rest)

/-- Modelled from the spec: `ProcessStringAndIndent` is declared in lexer.h and defined in
lexer.cpp, which is not among the sources. The leading spaces of the new line are measured
in units of two; an odd number is a lexer error. The depth is set and the difference to the
old depth is queued as that many Indent or Dedent tokens; the rest of the line is buffered. -/
def Lexer.ProcessStringAndIndent (l : Lexer) (line : List Char) (rest : List (List Char)) :
    Except LexerError Lexer :=
  let spaces := (line.takeWhile (fun c => c == ' ')).length
  if spaces % 2 != 0 then .error ⟨"Indentation is not a multiple of two spaces"⟩
  else
    .ok { l with
      input_ := rest
      current_line_ := line.drop spaces
      cursor_ := line.drop spaces
      indent_ := spaces / 2
      indent_number_ := ((spaces / 2 : Nat) : Int) - (l.indent_ : Int) }

/-- Modelled from the spec: `Lexer::NextToken` is declared in lexer.h and defined in
lexer.cpp, which is not among the sources. It follows the algorithm of the lexer: queued
Indent/Dedent tokens first; then the buffered line; without a buffered line the next
non-blank line is read and its indentation processed; at end of input the outstanding
Dedents and then Eof. The produced token becomes the current token. -/
def Lexer.NextToken (l : Lexer) : Except LexerError Token × Lexer :=
  match l.CheckIndentDedent with
  | some (t, l1) => (.ok t, l1)
  | none =>
    if !l.current_line_.isEmpty then l.GetTokenFromBuffer
    else if l.is_stream_finished then
      (.ok l.FinishedStreamProcess.1, l.FinishedStreamProcess.2)
    else
      match GetNewLine l.input_ with
      | none =>
        (.ok ({ l with input_ := [], is_stream_finished := true }).FinishedStreamProcess.1,
          ({ l with input_ := [], is_stream_finished := true }).FinishedStreamProcess.2)
      | some (line, rest) =>
        match l.ProcessStringAndIndent line rest with
        | .error e => (.error e, l)
        | .ok l1 =>
          match l1.CheckIndentDedent with
          | some (t, l2) => (.ok t, l2)
          | none => l1.GetTokenFromBuffer

/-- `Lexer::Expect<T>()`, a `const` member function: the state is passed through. -/
def Lexer.Expect (l : Lexer) (T : token_type) : Except LexerError (Payload T) × Lexer :=
  if l.current_token_.Is T then
    match l.current_token_.TryAs T with
    | some v => (.ok v, l)
    | none => (.error ⟨"bad_variant_access"⟩, l)
  else
    (.error ⟨"Wrong expected type"⟩, l)

/-- `Lexer::Expect<T, U>(value)`, a `const` member function: the state is passed through. The
template is generic in the type `U` of the value; `ne` is the `!=` that C++ selects between
the type of the member `value` of the struct of type `T` and `U`, conversions included. -/
def Lexer.ExpectValue (l : Lexer) (T : token_type) {U : Type} (ne : Payload T → U → Bool)
    (value : U) : Except LexerError Unit × Lexer :=
  match l.current_token_.TryAs T with
  | none => (.error ⟨"Wrong expected type"⟩, l)
  | some token_value =>
    if ne token_value value then (.error ⟨"Wrong expected type"⟩, l)
    else (.ok (), l)

/-- The `!=` of C++ between two values of the type of the member `value`: they differ. An
`int` is represented by the integer it denotes. -/
def Payload.ne (T : token_type) (a b : Payload T) : Bool := a != b

/-- `Lexer::ExpectNext<T>()`: `NextToken(); return Expect<T>();`. `NextToken` is defined in
lexer.cpp and is a parameter here. -/
def Lexer.ExpectNext (next : Lexer → Except LexerError Token × Lexer) (l : Lexer)
    (T : token_type) : Except LexerError (Payload T) × Lexer :=
  match next l with
  | (.ok _, l1) => l1.Expect T
  | (.error e, l1) => (.error e, l1)

/-- `Lexer::ExpectNext<T, U>(value)`: `NextToken(); Expect<T, U>(value);`. -/
def Lexer.ExpectNextValue (next : Lexer → Except LexerError Token × Lexer) (l : Lexer)
    (T : token_type) {U : Type} (ne : Payload T → U → Bool) (value : U) :
    Except LexerError Unit × Lexer :=
  match next l with
  | (.ok _, l1) => l1.ExpectValue T ne value
  | (.error e, l1) => (.error e, l1)

end parse

namespace runtime

/-! ## Method resolution -/

section Resolution

variable {Stmt : Type}

/-- One unfolding of `Class::GetMethod`. -/
theorem Class.GetMethod_mk (n : String) (ms : List (Method Stmt)) (p : Option (Class Stmt))
    (name : String) :
    (Class.mk n ms p).GetMethod name =
      match ms.find? (fun method => method.name == name) with
      | some it => some it
      | none =>
        match p with
        | some parent => parent.GetMethod name
        | none => none := by
  cases p with
  | none => simp only [Class.GetMethod]
  | some parent =>
    simp only [Class.GetMethod]
    cases ms.find? (fun method => method.name == name) with
    | some it => rfl
    | none =>
      simp only
      cases Class.GetMethod parent name <;> rfl

/-- A class declares a name exactly when the search of its own list succeeds. -/
theorem Class.declares_iff_find (c : Class Stmt) (name : String) :
    c.declares name ↔ ∃ m, c.methods_.find? (fun x => x.name == name) = some m := by
  unfold Class.declares
  constructor
  · rintro ⟨m, hm, hn⟩
    cases hf : c.methods_.find? (fun x => x.name == name) with
    | some it => exact ⟨it, rfl⟩
    | none =>
      rw [List.find?_eq_none] at hf
      have := hf m hm
      simp [hn] at this
  · rintro ⟨m, hf⟩
    refine ⟨m, List.mem_of_find?_eq_some hf, ?_⟩
    have := List.find?_some hf
    simpa using this

/-- The own-list case: the first own method of that name is the result. -/
theorem Class.GetMethod_own (c : Class Stmt) (name : String) (m : Method Stmt)
    (hf : c.methods_.find? (fun x => x.name == name) = some m) :
    c.GetMethod name = some m := by
  cases c with
  | mk n ms p =>
    simp only [Class.methods_] at hf
    rw [Class.GetMethod_mk, hf]

/-- The miss case: the result is the one of the parent, or null without a parent. -/
theorem Class.GetMethod_miss (c : Class Stmt) (name : String)
    (hf : c.methods_.find? (fun x => x.name == name) = none) :
    c.GetMethod name =
      match c.parent_ with
      | some p => p.GetMethod name
      | none => none := by
  cases c with
  | mk n ms p =>
    simp only [Class.methods_] at hf
    rw [Class.GetMethod_mk, hf]
    rfl

/-- Null is returned exactly when no class of the chain declares the name. -/
theorem Class.GetMethod_eq_none_iff :
    ∀ (c : Class Stmt) (name : String),
      c.GetMethod name = none ↔ ∀ k ∈ c.chain, ¬ k.declares name
  | .mk n ms none, name => by
    have hms : (Class.mk n ms none).methods_ = ms := rfl
    rw [Class.GetMethod_mk]
    simp only [Class.chain, List.mem_singleton, forall_eq, Class.declares_iff_find, hms]
    cases ms.find? (fun x => x.name == name) <;> simp
  | .mk n ms (some p), name => by
    have ih := Class.GetMethod_eq_none_iff p name
    have hms : (Class.mk n ms (some p)).methods_ = ms := rfl
    rw [Class.GetMethod_mk]
    simp only [Class.chain, List.mem_cons, forall_eq_or_imp, Class.declares_iff_find, hms]
    cases ms.find? (fun x => x.name == name) with
    | some it => simp
    | none =>
      simp only [ih, Class.declares_iff_find]
      simp

/-- A returned method carries the requested name and is declared on the chain. -/
theorem Class.GetMethod_some_mem :
    ∀ (c : Class Stmt) (name : String) (m : Method Stmt), c.GetMethod name = some m →
      m.name = name ∧ ∃ k ∈ c.chain, m ∈ k.methods_
  | .mk n ms none, name, m => by
    rw [Class.GetMethod_mk]
    cases hf : ms.find? (fun x => x.name == name) with
    | some it =>
      intro h
      simp only [Option.some.injEq] at h
      subst h
      refine ⟨by simpa using List.find?_some hf, Class.mk n ms none, by simp [Class.chain], ?_⟩
      exact List.mem_of_find?_eq_some hf
    | none => simp
  | .mk n ms (some p), name, m => by
    have ih := Class.GetMethod_some_mem p name m
    rw [Class.GetMethod_mk]
    cases hf : ms.find? (fun x => x.name == name) with
    | some it =>
      intro h
      simp only [Option.some.injEq] at h
      subst h
      refine ⟨by simpa using List.find?_some hf, Class.mk n ms (some p),
        by simp [Class.chain], ?_⟩
      exact List.mem_of_find?_eq_some hf
    | none =>
      intro h
      obtain ⟨h1, k, hk, hm⟩ := ih h
      exact ⟨h1, k, by simp [Class.chain, hk], hm⟩

/-- C1. `Class::GetMethod` resolves a name to its nearest declaration. If the class declares
the name, the result is the (first) own method of that name, whatever the ancestors declare;
otherwise it is exactly the result of the parent, or null for a class without parent. The
result is null if and only if no class of the parent chain declares the name; a returned
method carries the name and belongs to a class of the chain. The function is total: it
returns for every class and name and raises nothing. -/
theorem GetMethod_resolves_nearest (c : Class Stmt) (name : String) :
    (c.declares name →
      ∃ m, c.methods_.find? (fun x => x.name == name) = some m ∧ m ∈ c.methods_ ∧
        m.name = name ∧ c.GetMethod name = some m) ∧
    (¬ c.declares name →
      c.GetMethod name =
        match c.parent_ with
        | some p => p.GetMethod name
        | none => none) ∧
    (c.GetMethod name = none ↔ ∀ k ∈ c.chain, ¬ k.declares name) ∧
    (∀ m, c.GetMethod name = some m → m.name = name ∧ ∃ k ∈ c.chain, m ∈ k.methods_) := by
  refine ⟨?_, ?_, Class.GetMethod_eq_none_iff c name, Class.GetMethod_some_mem c name⟩
  · intro hd
    obtain ⟨m, hf⟩ := (Class.declares_iff_find c name).mp hd
    refine ⟨m, hf, List.mem_of_find?_eq_some hf, ?_, Class.GetMethod_own c name m hf⟩
    simpa using List.find?_some hf
  · intro hd
    apply Class.GetMethod_miss
    cases hf : c.methods_.find? (fun x => x.name == name) with
    | none => rfl
    | some m => exact absurd ((Class.declares_iff_find c name).mpr ⟨m, hf⟩) hd

/-- C1 on the chain Grandparent, Parent, Child: the override of `f` in Child shadows the ones
of Parent and Grandparent, `hello` of Grandparent is found from Child, and a name declared
nowhere resolves to null. -/
theorem GetMethod_resolves_nearest_witness :
    Sample.Child.GetMethod "f" = some ⟨"f", ["x"], .returnNumber 3⟩ ∧
    Sample.Child.GetMethod "hello" = Sample.Parent.GetMethod "hello" ∧
    Sample.Child.GetMethod "hello" = some ⟨"hello", [], .returnString "hello"⟩ ∧
    Sample.Child.GetMethod "missing" = none :=
  ⟨by
    obtain ⟨m, hf, _, _, hg⟩ :=
      (GetMethod_resolves_nearest Sample.Child "f").1 ⟨⟨"f", ["x"], .returnNumber 3⟩, by decide⟩
    rw [hg, ← hf]
    rfl,
   (GetMethod_resolves_nearest Sample.Child "hello").2.1 (by decide),
   by decide, by decide⟩

end Resolution

/-! ## Dispatch on an instance -/

section Dispatch

variable {Stmt Ctx : Type}

/-- `HasMethod` in terms of the result of the lookup. -/
theorem ClassInstance.HasMethod_eq (self : ClassInstance Stmt) (method : String) (argc : Nat) :
    self.HasMethod method argc =
      match self.cls_.GetMethod method with
      | some m => decide (m.formal_params.length = argc)
      | none => false := by
  unfold ClassInstance.HasMethod
  cases self.cls_.GetMethod method with
  | none => rfl
  | some m => by_cases h : m.formal_params.length = argc <;> simp [h]

/-- C2. `ClassInstance::HasMethod(name, argc)` is true if and only if `GetMethod(name)` of
the class of the instance finds a method and the number of formal parameters of that method
is exactly `argc`. In particular it is false for `argc = 2` when the resolved method takes
one parameter. -/
theorem HasMethod_iff_found_with_arity (self : ClassInstance Stmt) (name : String)
    (argc : Nat) :
    (self.HasMethod name argc = true ↔
      ∃ m, self.cls_.GetMethod name = some m ∧ m.formal_params.length = argc) ∧
    (∀ m, self.cls_.GetMethod name = some m → m.formal_params.length = 1 →
      self.HasMethod name 2 = false) := by
  constructor
  · rw [ClassInstance.HasMethod_eq]
    cases self.cls_.GetMethod name with
    | none => simp
    | some m => simp
  · intro m hm h1
    rw [ClassInstance.HasMethod_eq, hm]
    simp [h1]

/-- C2 on the sample instance: `f` takes one parameter, so it is there for one argument and
not for two or none; a name declared nowhere is never there. -/
theorem HasMethod_iff_found_with_arity_witness :
    Sample.child.HasMethod "f" 1 = true ∧ Sample.child.HasMethod "f" 2 = false ∧
    Sample.child.HasMethod "f" 0 = false ∧ Sample.child.HasMethod "missing" 0 = false :=
  ⟨(HasMethod_iff_found_with_arity Sample.child "f" 1).1.mpr ⟨_, rfl, rfl⟩,
   (HasMethod_iff_found_with_arity Sample.child "f" 2).2 _ rfl rfl,
   by decide, by decide⟩

end Dispatch

section Calls

variable {Stmt Ctx : Type}

/-- Lookup after an assignment. -/
theorem Closure.find_assign (c : Closure Stmt) (key : String) (value : ObjectHolder Stmt)
    (k : String) :
    Closure.find (Closure.assign c key value) k =
      if key = k then some value else Closure.find c k := by
  induction c with
  | nil =>
    by_cases h : key = k <;> simp [Closure.assign, Closure.find, h]
  | cons e rest ih =>
    obtain ⟨k0, v0⟩ := e
    by_cases h0 : k0 = key
    · subst h0
      by_cases h : k0 = k <;> simp [Closure.assign, Closure.find, h]
    · by_cases h : key = k
      · subst h
        simp [Closure.assign, Closure.find, h0, ih]
      · by_cases h1 : k0 = k
        · subst h1
          simp [Closure.assign, Closure.find, h0, h]
        · simp [Closure.assign, Closure.find, h0, h, h1, ih]

/-- Lookup in the closure left by the binding loop: the binding made last for the key, or
the one the closure had before the loop. -/
theorem ClassInstance.find_bindArgs (ps : List String) :
    ∀ (args : List (ObjectHolder Stmt)) (c : Closure Stmt) (k : String),
      Closure.find (ClassInstance.bindArgs ps args c) k =
        match (ps.zip args).reverse.find? (fun pa => pa.1 == k) with
        | some pa => some pa.2
        | none => Closure.find c k := by
  induction ps with
  | nil => intro args c k; simp [ClassInstance.bindArgs]
  | cons p ps ih =>
    intro args c k
    cases args with
    | nil => simp [ClassInstance.bindArgs]
    | cons a rest =>
      simp only [ClassInstance.bindArgs, ih, List.zip_cons_cons, List.reverse_cons,
        List.find?_append]
      cases (ps.zip rest).reverse.find? (fun pa => pa.1 == k) with
      | some pa => simp
      | none =>
        by_cases h : p = k <;> simp [Closure.find_assign, h]

/-- With the guard of `Call` true, `Call` is one execution of the resolved body. -/
theorem ClassInstance.Call_of_HasMethod (Execute : Executor Stmt Ctx)
    (self : ClassInstance Stmt) (method : String) (args : List (ObjectHolder Stmt))
    (w : World Stmt Ctx) (h : self.HasMethod method args.length = true) :
    ∃ m, self.cls_.GetMethod method = some m ∧ m.formal_params.length = args.length ∧
      self.Call Execute method args w =
        Execute m.body (self.localClosure m.formal_params args) w := by
  have h0 := h
  rw [ClassInstance.HasMethod_eq] at h0
  cases hm : self.cls_.GetMethod method with
  | none => simp [hm] at h0
  | some m =>
    simp only [hm, decide_eq_true_eq] at h0
    refine ⟨m, rfl, h0, ?_⟩
    simp [ClassInstance.Call, h, hm]

/-- With the guard of `Call` false, `Call` raises and leaves the state as it was. -/
theorem ClassInstance.Call_of_not_HasMethod (Execute : Executor Stmt Ctx)
    (self : ClassInstance Stmt) (method : String) (args : List (ObjectHolder Stmt))
    (w : World Stmt Ctx) (h : self.HasMethod method args.length = false) :
    self.Call Execute method args w = (.error (.runtime_error "No such method"), w) := by
  simp [ClassInstance.Call, h]

/-- C3, as stated, fails: `g()` of the sample class Child exists with no parameter, so
`HasMethod("g", 0)` holds, and its body calls a method that no class declares; the error
"No such method" raised by that nested call leaves `Call("g", [])`, after the body of `g`
was executed (one execution is counted). -/
theorem Call_raises_no_such_method_with_HasMethod :
    Sample.child.HasMethod "g" 0 = true ∧
    Sample.child.Call (Sample.Execute 1) "g" [] Sample.w0 =
      (.error (.runtime_error "No such method"), ⟨[], 1, []⟩) ∧
    ¬ ((Sample.child.Call (Sample.Execute 1) "g" [] Sample.w0).1 =
          .error (.runtime_error "No such method") ↔
        Sample.child.HasMethod "g" ([] : List (ObjectHolder Sample.Stmt)).length = false) := by
  refine ⟨by decide, rfl, ?_⟩
  intro h
  have h1 := h.mp rfl
  revert h1
  decide

/-- C3, amended. `ClassInstance::Call` raises "No such method" whatever the method bodies do
if and only if `HasMethod(method, args.size())` is false, that is when the name is unknown on
the whole chain or the resolved method has another number of parameters. In that case no
body is executed (the outcome does not depend on the executor and the state is unchanged)
and no value is returned. When `HasMethod` holds, the outcome of `Call` is the outcome of the
execution of the resolved body, so an error raised by the body leaves `Call` unchanged. -/
theorem Call_raises_iff_not_HasMethod (self : ClassInstance Stmt) (method : String)
    (args : List (ObjectHolder Stmt)) (w : World Stmt Ctx) :
    (self.HasMethod method args.length = false ↔
      ∀ Execute : Executor Stmt Ctx,
        (self.Call Execute method args w).1 = .error (.runtime_error "No such method")) ∧
    (self.HasMethod method args.length = false ↔
      (self.cls_.GetMethod method = none ∨
        ∃ m, self.cls_.GetMethod method = some m ∧ m.formal_params.length ≠ args.length)) ∧
    (self.HasMethod method args.length = false →
      ∀ Execute : Executor Stmt Ctx,
        self.Call Execute method args w = (.error (.runtime_error "No such method"), w)) ∧
    (self.HasMethod method args.length = true →
      ∀ Execute : Executor Stmt Ctx, ∃ m, self.cls_.GetMethod method = some m ∧
        self.Call Execute method args w =
          Execute m.body (self.localClosure m.formal_params args) w) := by
  refine ⟨⟨?_, ?_⟩, ?_, ?_, ?_⟩
  · intro h Execute
    rw [ClassInstance.Call_of_not_HasMethod Execute self method args w h]
  · intro h
    cases hh : self.HasMethod method args.length with
    | false => rfl
    | true =>
      obtain ⟨m, _, _, hc⟩ :=
        ClassInstance.Call_of_HasMethod (fun _ _ w1 => (.ok ObjectHolder.None, w1))
          self method args w hh
      have := h (fun _ _ w1 => (.ok ObjectHolder.None, w1))
      rw [hc] at this
      cases this
  · rw [ClassInstance.HasMethod_eq]
    cases self.cls_.GetMethod method with
    | none => simp
    | some m => simp
  · intro h Execute
    exact ClassInstance.Call_of_not_HasMethod Execute self method args w h
  · intro h Execute
    obtain ⟨m, hm, _, hc⟩ := ClassInstance.Call_of_HasMethod Execute self method args w h
    exact ⟨m, hm, hc⟩

/-- C3, amended, on the sample instance: a name declared nowhere and a call of `f(x)` with two
arguments raise without any body being executed (the counter of executions stays 0). -/
theorem Call_raises_iff_not_HasMethod_witness :
    Sample.child.Call (Sample.Execute 3) "missing" [] Sample.w0 =
      (.error (.runtime_error "No such method"), Sample.w0) ∧
    Sample.child.Call (Sample.Execute 3) "f" [ObjectHolder.None, ObjectHolder.None] Sample.w0 =
      (.error (.runtime_error "No such method"), Sample.w0) :=
  ⟨(Call_raises_iff_not_HasMethod Sample.child "missing" [] Sample.w0).2.2.1 (by decide) _,
   (Call_raises_iff_not_HasMethod Sample.child "f" [ObjectHolder.None, ObjectHolder.None]
      Sample.w0).2.2.1 (by decide) _⟩

end Calls

section CallClosure

variable {Stmt Ctx : Type}

/-- A key that is no formal parameter keeps the binding it had before the loop. -/
theorem ClassInstance.find_bindArgs_of_not_mem (ps : List String) :
    ∀ (args : List (ObjectHolder Stmt)) (c : Closure Stmt) (k : String), k ∉ ps →
      Closure.find (ClassInstance.bindArgs ps args c) k = Closure.find c k := by
  induction ps with
  | nil => intro args c k _; simp [ClassInstance.bindArgs]
  | cons p ps ih =>
    intro args c k hk
    cases args with
    | nil => simp [ClassInstance.bindArgs]
    | cons a rest =>
      have hne : ¬ p = k := fun h => hk (by simp [h])
      have hk2 : k ∉ ps := fun h => hk (by simp [h])
      simp [ClassInstance.bindArgs, ih rest _ k hk2, Closure.find_assign, hne]

/-- With pairwise distinct formal parameters, the i-th one is bound to the i-th argument. -/
theorem ClassInstance.find_bindArgs_of_nodup (ps : List String) :
    ∀ (args : List (ObjectHolder Stmt)) (c : Closure Stmt), ps.Nodup →
      ∀ (i : Nat) (hp : i < ps.length) (hi : i < args.length),
        Closure.find (ClassInstance.bindArgs ps args c) ps[i] = some args[i] := by
  induction ps with
  | nil => intro args c _ i hp; simp at hp
  | cons p ps ih =>
    intro args c hnd i hp hi
    cases args with
    | nil => simp at hi
    | cons a rest =>
      rw [List.nodup_cons] at hnd
      cases i with
      | zero =>
        simp [ClassInstance.bindArgs, ClassInstance.find_bindArgs_of_not_mem ps rest _ p hnd.1,
          Closure.find_assign]
      | succ j =>
        simp only [ClassInstance.bindArgs, List.getElem_cons_succ]
        exact ih rest _ hnd.2 j (by simpa using hp) (by simpa using hi)

/-- C4, as stated, fails: `h(self)` of the sample class Child has one formal parameter, named
`self`. `HasMethod("h", 1)` holds, and the closure built by `Call("h", [Number 1])` binds
`self` to the argument Number 1, not to the instance: the body `return self` returns
Number 1. -/
theorem Call_rebinds_self_to_argument :
    Sample.child.HasMethod "h" 1 = true ∧
    Closure.find (Sample.child.localClosure ["self"] [⟨some (.Number 1)⟩]) "self" =
      some ⟨some (.Number 1)⟩ ∧
    Closure.find (Sample.child.localClosure ["self"] [⟨some (.Number 1)⟩]) "self" ≠
      some (ObjectHolder.Share (.ClassInstance Sample.child)) ∧
    Sample.child.Call (Sample.Execute 1) "h" [⟨some (.Number 1)⟩] Sample.w0 =
      (.ok ⟨some (.Number 1)⟩, ⟨[], 1, []⟩) := by
  refine ⟨by decide, rfl, ?_, rfl⟩
  have h : Closure.find (Sample.child.localClosure ["self"] [⟨some (.Number 1)⟩]) "self" =
      some ⟨some (.Number 1)⟩ := rfl
  rw [h]
  simp [ObjectHolder.Share]

/-- C4, amended. When `HasMethod(method, args.size())` holds, `ClassInstance::Call` is exactly
one execution of the body of the resolved method, in the given state and context, on a
closure built from the empty one by assigning `self` (a holder of the instance itself) and
then `formal_params[i] := args[i]` for i = 0, 1, ... in this order; `Call` returns what that
execution returns (value or error, and final state). A later assignment to a name replaces
an earlier one, so a name is bound to the argument of its last occurrence among the formal
parameters, `self` is bound to the instance unless a formal parameter is called `self`, and
no other name is bound (no instance field). When the formal parameter names are pairwise
distinct and none is `self`, the closure holds `self` bound to the instance, every
`formal_params[i]` bound to `args[i]`, and nothing else. -/
theorem Call_executes_body_once (Execute : Executor Stmt Ctx) (self : ClassInstance Stmt)
    (method : String) (args : List (ObjectHolder Stmt)) (w : World Stmt Ctx)
    (h : self.HasMethod method args.length = true) :
    ∃ m, self.cls_.GetMethod method = some m ∧ m.formal_params.length = args.length ∧
      self.Call Execute method args w =
        Execute m.body (self.localClosure m.formal_params args) w ∧
      (∀ k, Closure.find (self.localClosure m.formal_params args) k =
        match (m.formal_params.zip args).reverse.find? (fun pa => pa.1 == k) with
        | some pa => some pa.2
        | none =>
          if k = "self" then some (ObjectHolder.Share (.ClassInstance self)) else none) ∧
      (m.formal_params.Nodup → "self" ∉ m.formal_params →
        Closure.find (self.localClosure m.formal_params args) "self" =
          some (ObjectHolder.Share (.ClassInstance self)) ∧
        (∀ (i : Nat) (hp : i < m.formal_params.length) (hi : i < args.length),
          Closure.find (self.localClosure m.formal_params args) m.formal_params[i] =
            some args[i]) ∧
        (∀ k, k ≠ "self" → k ∉ m.formal_params →
          Closure.find (self.localClosure m.formal_params args) k = none)) := by
  obtain ⟨m, hm, hlen, hc⟩ := ClassInstance.Call_of_HasMethod Execute self method args w h
  refine ⟨m, hm, hlen, hc, ?_, ?_⟩
  · intro k
    unfold ClassInstance.localClosure
    rw [ClassInstance.find_bindArgs]
    cases (m.formal_params.zip args).reverse.find? (fun pa => pa.1 == k) with
    | some pa => rfl
    | none =>
      by_cases hk : k = "self"
      · subst hk
        simp [Closure.assign, Closure.find]
      · have hk2 : ¬ "self" = k := fun e => hk e.symm
        simp [Closure.assign, Closure.find, hk, hk2]
  · intro hnd hself
    unfold ClassInstance.localClosure
    refine ⟨?_, ?_, ?_⟩
    · rw [ClassInstance.find_bindArgs_of_not_mem _ _ _ _ hself]
      simp [Closure.assign, Closure.find]
    · intro i hp hi
      exact ClassInstance.find_bindArgs_of_nodup _ _ _ hnd i hp hi
    · intro k hk hmem
      have hk2 : ¬ "self" = k := fun e => hk e.symm
      rw [ClassInstance.find_bindArgs_of_not_mem _ _ _ _ hmem]
      simp [Closure.assign, Closure.find, hk2]

/-- C4, amended, on the sample instance: `id(x)` returns its parameter; the call with the
argument Number 5 returns that holder, and exactly one body execution is counted. -/
theorem Call_executes_body_once_witness :
    Sample.child.HasMethod "id" 1 = true ∧
    Sample.child.Call (Sample.Execute 1) "id" [⟨some (.Number 5)⟩] Sample.w0 =
      (.ok ⟨some (.Number 5)⟩, ⟨[], 1, []⟩) ∧
    Closure.find (Sample.child.localClosure ["x"] [⟨some (.Number 5)⟩]) "self" =
      some (ObjectHolder.Share (.ClassInstance Sample.child)) :=
  ⟨by decide,
   by
    obtain ⟨m, hm, _, hc, _⟩ :=
      Call_executes_body_once (Sample.Execute 1) Sample.child "id" [⟨some (.Number 5)⟩]
        Sample.w0 (by decide)
    have hm2 : Sample.child.cls_.GetMethod "id" = some ⟨"id", ["x"], .returnVariable "x"⟩ := by
      decide
    rw [hm2] at hm
    cases hm
    rw [hc]
    rfl,
   rfl⟩

end CallClosure

/-! ## Truthiness -/

section Truthiness

variable {Stmt : Type}

/-- A string differs from the empty string exactly when it has a character. -/
theorem String.ne_empty_iff_length (s : String) : s ≠ "" ↔ s.length ≠ 0 := by
  cases s with
  | mk data =>
    cases data with
    | nil => simp [String.length]
    | cons c cs =>
      simp only [String.length, List.length_cons, ne_eq, Nat.add_one_ne_zero,
        not_false_eq_true, iff_true]
      intro h
      have := congrArg String.data h
      simp at this

/-- C5. `IsTrue` of a holder is the stored value for a Bool, `value != 0` for a Number,
non-emptiness for a String, and false for everything else: a null holder, a Class, a
ClassInstance. It is a total function and raises nothing. In particular Number(0) is false,
Number(-1) true, String("") false, String("0") true, Bool(false) false. -/
theorem IsTrue_by_kind (object : ObjectHolder Stmt) :
    (IsTrue object =
      match object.Get with
      | some (.Bool b) => b
      | some (.Number n) => decide (n ≠ 0)
      | some (.String s) => decide (s.length ≠ 0)
      | some (.Class _) => false
      | some (.ClassInstance _) => false
      | none => false) ∧
    IsTrue (⟨some (.Number 0)⟩ : ObjectHolder Stmt) = false ∧
    IsTrue (⟨some (.Number (-1))⟩ : ObjectHolder Stmt) = true ∧
    IsTrue (⟨some (.String "")⟩ : ObjectHolder Stmt) = false ∧
    IsTrue (⟨some (.String "0")⟩ : ObjectHolder Stmt) = true ∧
    IsTrue (⟨some (.Bool false)⟩ : ObjectHolder Stmt) = false ∧
    IsTrue (ObjectHolder.None : ObjectHolder Stmt) = false := by
  refine ⟨?_, rfl, rfl, rfl, rfl, rfl, rfl⟩
  obtain ⟨d⟩ := object
  cases d with
  | none => rfl
  | some o =>
    cases o with
    | Number n =>
      by_cases hn : n = 0 <;>
        simp [IsTrue, ObjectHolder.TryAsBool, ObjectHolder.TryAsNumber,
          ObjectHolder.TryAsString, ObjectHolder.Get, hn]
    | String s =>
      have := String.ne_empty_iff_length s
      by_cases hs : s = ""
      · subst hs
        simp [IsTrue, ObjectHolder.TryAsBool, ObjectHolder.TryAsNumber,
          ObjectHolder.TryAsString, ObjectHolder.Get]
      · simp [IsTrue, ObjectHolder.TryAsBool, ObjectHolder.TryAsNumber,
          ObjectHolder.TryAsString, ObjectHolder.Get, hs, this.mp hs]
    | Bool b =>
      simp [IsTrue, ObjectHolder.TryAsBool, ObjectHolder.TryAsNumber,
        ObjectHolder.TryAsString, ObjectHolder.Get]
    | Class c => rfl
    | ClassInstance i => rfl

end Truthiness

/-! ## Comparison of built-in values -/

section BuiltinComparison

variable {Stmt Ctx : Type}

/-- C6. For a left operand that is not a ClassInstance, `Equal` returns `a == b` when both
operands hold values of the same kind (Number/Number, String/String, Bool/Bool), returns
true when both holders are null, and raises "Cannot compare objects for equality" in every
other case; the state is left as it was and no method body is executed. In particular a
Number and a String raise for all values, as do a null holder against a non-null one and a
value against a ClassInstance on the right. -/
theorem Equal_of_builtin (Execute : Executor Stmt Ctx) (lhs rhs : ObjectHolder Stmt)
    (w : World Stmt Ctx) (h : ∀ inst, lhs.Get ≠ some (.ClassInstance inst)) :
    Equal Execute lhs rhs w =
      ((match lhs.Get, rhs.Get with
        | some (.Number a), some (.Number b) => .ok (decide (a = b))
        | some (.String a), some (.String b) => .ok (decide (a = b))
        | some (.Bool a), some (.Bool b) => .ok (decide (a = b))
        | none, none => .ok true
        | _, _ => .error (.runtime_error "Cannot compare objects for equality")), w) ∧
    (∀ (n : Int) (s : String),
      Equal Execute ⟨some (.Number n)⟩ ⟨some (.String s)⟩ w =
        (.error (.runtime_error "Cannot compare objects for equality"), w) ∧
      Equal Execute ⟨some (.String s)⟩ ⟨some (.Number n)⟩ w =
        (.error (.runtime_error "Cannot compare objects for equality"), w)) ∧
    (∀ o, rhs.Get = some o → lhs.Get = none →
      Equal Execute lhs rhs w =
        (.error (.runtime_error "Cannot compare objects for equality"), w)) ∧
    (∀ o, lhs.Get = some o → rhs.Get = none →
      Equal Execute lhs rhs w =
        (.error (.runtime_error "Cannot compare objects for equality"), w)) ∧
    (∀ inst, rhs.Get = some (.ClassInstance inst) →
      Equal Execute lhs rhs w =
        (.error (.runtime_error "Cannot compare objects for equality"), w)) := by
  obtain ⟨l⟩ := lhs
  obtain ⟨r⟩ := rhs
  refine ⟨?_, fun n s => ⟨rfl, rfl⟩, ?_, ?_, ?_⟩
  · cases l with
    | none => cases r with
      | none => rfl
      | some ro => cases ro <;> rfl
    | some lo =>
      cases lo with
      | ClassInstance i => exact absurd rfl (h i)
      | Number a => cases r with
        | none => rfl
        | some ro => cases ro <;> rfl
      | String a => cases r with
        | none => rfl
        | some ro => cases ro <;> rfl
      | Bool a => cases r with
        | none => rfl
        | some ro => cases ro <;> rfl
      | Class c => cases r with
        | none => rfl
        | some ro => cases ro <;> rfl
  · intro o hr hl
    simp only [ObjectHolder.Get] at hr hl
    subst hr hl
    cases o <;> rfl
  · intro o hl hr
    simp only [ObjectHolder.Get] at hr hl
    subst hr hl
    cases o with
    | ClassInstance i => exact absurd rfl (h i)
    | _ => rfl
  · intro inst hr
    simp only [ObjectHolder.Get] at hr
    subst hr
    cases l with
    | none => rfl
    | some lo =>
      cases lo with
      | ClassInstance i => exact absurd rfl (h i)
      | _ => rfl

/-- C6 on concrete operands: equal and different Numbers, equal Strings, two null holders,
and a Number against a String holding the same digits. -/
theorem Equal_of_builtin_witness :
    Equal (Sample.Execute 1) ⟨some (.Number 2)⟩ ⟨some (.Number 2)⟩ Sample.w0 =
      (.ok true, Sample.w0) ∧
    Equal (Sample.Execute 1) ⟨some (.Number 2)⟩ ⟨some (.Number 3)⟩ Sample.w0 =
      (.ok false, Sample.w0) ∧
    Equal (Sample.Execute 1) ⟨some (.String "a")⟩ ⟨some (.String "a")⟩ Sample.w0 =
      (.ok true, Sample.w0) ∧
    Equal (Sample.Execute 1) ObjectHolder.None ObjectHolder.None Sample.w0 =
      (.ok true, Sample.w0) ∧
    Equal (Sample.Execute 1) ⟨some (.Number 1)⟩ ⟨some (.String "1")⟩ Sample.w0 =
      (.error (.runtime_error "Cannot compare objects for equality"), Sample.w0) :=
  ⟨(Equal_of_builtin (Sample.Execute 1) ⟨some (.Number 2)⟩ ⟨some (.Number 2)⟩ Sample.w0
      (by intro inst hi; cases hi)).1,
   (Equal_of_builtin (Sample.Execute 1) ⟨some (.Number 2)⟩ ⟨some (.Number 3)⟩ Sample.w0
      (by intro inst hi; cases hi)).1,
   (Equal_of_builtin (Sample.Execute 1) ⟨some (.String "a")⟩ ⟨some (.String "a")⟩ Sample.w0
      (by intro inst hi; cases hi)).1,
   (Equal_of_builtin (Sample.Execute 1) ObjectHolder.None ObjectHolder.None Sample.w0
      (by intro inst hi; cases hi)).1,
   (Equal_of_builtin (Sample.Execute 1) ⟨some (.Number 1)⟩ ⟨some (.String "1")⟩ Sample.w0
      (by intro inst hi; cases hi)).1⟩

end BuiltinComparison

/-! ## Comparison through the hooks of an instance -/

section HookComparison

variable {Stmt Ctx : Type}

/-- C7. For a left operand that is a ClassInstance and any right operand (null included),
`Equal` is `IsTrue` of the result of `Call("__eq__", [rhs])` on that instance and `Less` is
`IsTrue` of the result of `Call("__lt__", [rhs])`: the value and the final state are those of
the call, an error of the call is passed on unchanged (in particular "No such method" when
the chain has no one-parameter hook), and nothing but the call decides the result. Hence
`Equal` returns true exactly when `__eq__` returns a true-ish value. -/
theorem Equal_Less_of_instance (Execute : Executor Stmt Ctx) (self : ClassInstance Stmt)
    (lhs rhs : ObjectHolder Stmt) (w : World Stmt Ctx)
    (h : lhs.Get = some (.ClassInstance self)) :
    Equal Execute lhs rhs w =
      (self.Call Execute "__eq__" [rhs] w).andThen (fun r w1 => (.ok (IsTrue r), w1)) ∧
    Less Execute lhs rhs w =
      (self.Call Execute "__lt__" [rhs] w).andThen (fun r w1 => (.ok (IsTrue r), w1)) ∧
    (∀ e w1, self.Call Execute "__eq__" [rhs] w = (.error e, w1) →
      Equal Execute lhs rhs w = (.error e, w1)) ∧
    (∀ e w1, self.Call Execute "__lt__" [rhs] w = (.error e, w1) →
      Less Execute lhs rhs w = (.error e, w1)) ∧
    (self.HasMethod "__eq__" 1 = false →
      Equal Execute lhs rhs w = (.error (.runtime_error "No such method"), w)) ∧
    (self.HasMethod "__lt__" 1 = false →
      Less Execute lhs rhs w = (.error (.runtime_error "No such method"), w)) ∧
    (∀ b w1, Equal Execute lhs rhs w = (.ok b, w1) ↔
      ∃ r, self.Call Execute "__eq__" [rhs] w = (.ok r, w1) ∧ IsTrue r = b) ∧
    (∀ b w1, Less Execute lhs rhs w = (.ok b, w1) ↔
      ∃ r, self.Call Execute "__lt__" [rhs] w = (.ok r, w1) ∧ IsTrue r = b) := by
  obtain ⟨l⟩ := lhs
  simp only [ObjectHolder.Get] at h
  subst h
  have hE : Equal Execute ⟨some (.ClassInstance self)⟩ rhs w =
      (self.Call Execute "__eq__" [rhs] w).andThen (fun r w1 => (.ok (IsTrue r), w1)) := by
    simp only [Equal, ObjectHolder.TryAsClassInstance, ObjectHolder.Get, Outcome.andThen]
    rcases self.Call Execute "__eq__" [rhs] w with ⟨_ | _, _⟩ <;> rfl
  have hL : Less Execute ⟨some (.ClassInstance self)⟩ rhs w =
      (self.Call Execute "__lt__" [rhs] w).andThen (fun r w1 => (.ok (IsTrue r), w1)) := by
    simp only [Less, ObjectHolder.TryAsClassInstance, ObjectHolder.Get, Outcome.andThen]
    rcases self.Call Execute "__lt__" [rhs] w with ⟨_ | _, _⟩ <;> rfl
  refine ⟨hE, hL, ?_, ?_, ?_, ?_, ?_, ?_⟩
  · intro e w1 hc
    rw [hE, hc]; rfl
  · intro e w1 hc
    rw [hL, hc]; rfl
  · intro hh
    rw [hE, ClassInstance.Call_of_not_HasMethod Execute self "__eq__" [rhs] w hh]; rfl
  · intro hh
    rw [hL, ClassInstance.Call_of_not_HasMethod Execute self "__lt__" [rhs] w hh]; rfl
  · intro b w1
    rw [hE]
    rcases self.Call Execute "__eq__" [rhs] w with ⟨e | r, w2⟩
    · simp [Outcome.andThen]
    · simp only [Outcome.andThen, Prod.mk.injEq, Except.ok.injEq]
      constructor
      · rintro ⟨hb, hw⟩
        exact ⟨r, ⟨rfl, hw⟩, hb⟩
      · rintro ⟨r2, ⟨hr, hw⟩, hb⟩
        subst hr
        exact ⟨hb, hw⟩
  · intro b w1
    rw [hL]
    rcases self.Call Execute "__lt__" [rhs] w with ⟨e | r, w2⟩
    · simp [Outcome.andThen]
    · simp only [Outcome.andThen, Prod.mk.injEq, Except.ok.injEq]
      constructor
      · rintro ⟨hb, hw⟩
        exact ⟨r, ⟨rfl, hw⟩, hb⟩
      · rintro ⟨r2, ⟨hr, hw⟩, hb⟩
        subst hr
        exact ⟨hb, hw⟩

/-- C7 on the sample instances. `__eq__` of Parent returns Bool true and `__lt__` returns
Number 0: an instance of Child (which inherits both) is equal to a Number, to a null holder
and to another instance, and less than none of them, each comparison executing one body. -/
theorem Equal_Less_of_instance_witness :
    Equal (Sample.Execute 1) ⟨some (.ClassInstance Sample.child)⟩ ⟨some (.Number 5)⟩
      Sample.w0 = (.ok true, ⟨[], 1, []⟩) ∧
    Equal (Sample.Execute 1) ⟨some (.ClassInstance Sample.child)⟩ ObjectHolder.None
      Sample.w0 = (.ok true, ⟨[], 1, []⟩) ∧
    Less (Sample.Execute 1) ⟨some (.ClassInstance Sample.child)⟩
      ⟨some (.ClassInstance Sample.parent)⟩ Sample.w0 = (.ok false, ⟨[], 1, []⟩) ∧
    Equal (Sample.Execute 1) ⟨some (.ClassInstance ⟨9, Sample.Grandparent⟩)⟩
      ⟨some (.Number 5)⟩ Sample.w0 =
      (.error (.runtime_error "No such method"), Sample.w0) :=
  ⟨((Equal_Less_of_instance (Sample.Execute 1) Sample.child
      ⟨some (.ClassInstance Sample.child)⟩ ⟨some (.Number 5)⟩ Sample.w0 rfl).1).trans rfl,
   ((Equal_Less_of_instance (Sample.Execute 1) Sample.child
      ⟨some (.ClassInstance Sample.child)⟩ ObjectHolder.None Sample.w0 rfl).1).trans rfl,
   ((Equal_Less_of_instance (Sample.Execute 1) Sample.child
      ⟨some (.ClassInstance Sample.child)⟩ ⟨some (.ClassInstance Sample.parent)⟩
      Sample.w0 rfl).2.1).trans rfl,
   (Equal_Less_of_instance (Sample.Execute 1) ⟨9, Sample.Grandparent⟩
      ⟨some (.ClassInstance ⟨9, Sample.Grandparent⟩)⟩ ⟨some (.Number 5)⟩
      Sample.w0 rfl).2.2.2.2.1 (by decide)⟩

end HookComparison

section BuiltinOrder

variable {Stmt Ctx : Type}

/-- C8. For a left operand that is not a ClassInstance, `Less` returns the strict natural
order `a < b` when both operands hold values of the same kind: the order of the integers for
Number, the lexicographic order of the character sequences for String, and false before true
for Bool. In every other case, mixed kinds and any null operand included, it raises
"Cannot compare objects for less". The state is left as it was. -/
theorem Less_of_builtin (Execute : Executor Stmt Ctx) (lhs rhs : ObjectHolder Stmt)
    (w : World Stmt Ctx) (h : ∀ inst, lhs.Get ≠ some (.ClassInstance inst)) :
    Less Execute lhs rhs w =
      ((match lhs.Get, rhs.Get with
        | some (.Number a), some (.Number b) => .ok (decide (a < b))
        | some (.String a), some (.String b) => .ok (decide (a.data < b.data))
        | some (.Bool a), some (.Bool b) => .ok (!a && b)
        | _, _ => .error (.runtime_error "Cannot compare objects for less")), w) ∧
    (lhs.Get = none ∨ rhs.Get = none →
      Less Execute lhs rhs w = (.error (.runtime_error "Cannot compare objects for less"), w)) ∧
    (∀ (n : Int) (s : String),
      Less Execute ⟨some (.Number n)⟩ ⟨some (.String s)⟩ w =
        (.error (.runtime_error "Cannot compare objects for less"), w) ∧
      Less Execute ⟨some (.String s)⟩ ⟨some (.Number n)⟩ w =
        (.error (.runtime_error "Cannot compare objects for less"), w)) := by
  obtain ⟨l⟩ := lhs
  obtain ⟨r⟩ := rhs
  refine ⟨?_, ?_, fun n s => ⟨rfl, rfl⟩⟩
  · cases l with
    | none => cases r with
      | none => rfl
      | some ro => cases ro <;> rfl
    | some lo =>
      cases lo with
      | ClassInstance i => exact absurd rfl (h i)
      | Number a => cases r with
        | none => rfl
        | some ro => cases ro <;> rfl
      | String a => cases r with
        | none => rfl
        | some ro => cases ro <;> rfl
      | Bool a => cases r with
        | none => rfl
        | some ro => cases ro <;> rfl
      | Class c => cases r with
        | none => rfl
        | some ro => cases ro <;> rfl
  · simp only [ObjectHolder.Get]
    rintro (hl | hr)
    · subst hl
      cases r with
      | none => rfl
      | some ro => cases ro <;> rfl
    · subst hr
      cases l with
      | none => rfl
      | some lo =>
        cases lo with
        | ClassInstance i => exact absurd rfl (h i)
        | _ => rfl

/-- C8 on concrete operands: integer order, lexicographic order of strings, false before
true, and the error for two null holders. -/
theorem Less_of_builtin_witness :
    Less (Sample.Execute 1) ⟨some (.Number (-3))⟩ ⟨some (.Number 2)⟩ Sample.w0 =
      (.ok true, Sample.w0) ∧
    Less (Sample.Execute 1) ⟨some (.Number 2)⟩ ⟨some (.Number 2)⟩ Sample.w0 =
      (.ok false, Sample.w0) ∧
    Less (Sample.Execute 1) ⟨some (.String "ab")⟩ ⟨some (.String "b")⟩ Sample.w0 =
      (.ok true, Sample.w0) ∧
    Less (Sample.Execute 1) ⟨some (.String "b")⟩ ⟨some (.String "ab")⟩ Sample.w0 =
      (.ok false, Sample.w0) ∧
    Less (Sample.Execute 1) ⟨some (.Bool false)⟩ ⟨some (.Bool true)⟩ Sample.w0 =
      (.ok true, Sample.w0) ∧
    Less (Sample.Execute 1) ObjectHolder.None ObjectHolder.None Sample.w0 =
      (.error (.runtime_error "Cannot compare objects for less"), Sample.w0) :=
  ⟨((Less_of_builtin (Sample.Execute 1) ⟨some (.Number (-3))⟩ ⟨some (.Number 2)⟩ Sample.w0
      (by intro inst hi; cases hi)).1).trans rfl,
   ((Less_of_builtin (Sample.Execute 1) ⟨some (.Number 2)⟩ ⟨some (.Number 2)⟩ Sample.w0
      (by intro inst hi; cases hi)).1).trans rfl,
   ((Less_of_builtin (Sample.Execute 1) ⟨some (.String "ab")⟩ ⟨some (.String "b")⟩ Sample.w0
      (by intro inst hi; cases hi)).1).trans rfl,
   ((Less_of_builtin (Sample.Execute 1) ⟨some (.String "b")⟩ ⟨some (.String "ab")⟩ Sample.w0
      (by intro inst hi; cases hi)).1).trans rfl,
   ((Less_of_builtin (Sample.Execute 1) ⟨some (.Bool false)⟩ ⟨some (.Bool true)⟩ Sample.w0
      (by intro inst hi; cases hi)).1).trans rfl,
   (Less_of_builtin (Sample.Execute 1) ObjectHolder.None ObjectHolder.None Sample.w0
      (by intro inst hi; cases hi)).2.1 (Or.inl rfl)⟩

end BuiltinOrder

/-! ## Derived comparisons -/

section Derived

variable {Stmt Ctx : Type}

/-- The outcome of `Call` depends on the executor only through the resolved body. -/
theorem ClassInstance.Call_congr (E1 E2 : Executor Stmt Ctx) (self : ClassInstance Stmt)
    (method : String) (args : List (ObjectHolder Stmt)) (w : World Stmt Ctx)
    (h : ∀ m, self.cls_.GetMethod method = some m → E1 m.body = E2 m.body) :
    self.Call E1 method args w = self.Call E2 method args w := by
  cases hh : self.HasMethod method args.length with
  | false =>
    rw [ClassInstance.Call_of_not_HasMethod E1 self method args w hh,
      ClassInstance.Call_of_not_HasMethod E2 self method args w hh]
  | true =>
    obtain ⟨m, hm, _, hc⟩ := ClassInstance.Call_of_HasMethod E1 self method args w hh
    obtain ⟨m2, hm2, _, hc2⟩ := ClassInstance.Call_of_HasMethod E2 self method args w hh
    rw [hm] at hm2
    cases hm2
    rw [hc, hc2, h m hm]

/-- The outcome of `Equal` depends on the executor only through the body of `__eq__` of the
left operand. -/
theorem Equal_congr (E1 E2 : Executor Stmt Ctx) (lhs rhs : ObjectHolder Stmt)
    (w : World Stmt Ctx)
    (h : ∀ self, lhs.Get = some (.ClassInstance self) →
      ∀ m, self.cls_.GetMethod "__eq__" = some m → E1 m.body = E2 m.body) :
    Equal E1 lhs rhs w = Equal E2 lhs rhs w := by
  obtain ⟨l⟩ := lhs
  cases l with
  | none => rfl
  | some lo =>
    cases lo with
    | ClassInstance self =>
      simp only [Equal, ObjectHolder.TryAsClassInstance, ObjectHolder.Get]
      rw [ClassInstance.Call_congr E1 E2 self "__eq__" [rhs] w (h self rfl)]
    | _ => rfl

/-- The outcome of `Less` depends on the executor only through the body of `__lt__` of the
left operand. -/
theorem Less_congr (E1 E2 : Executor Stmt Ctx) (lhs rhs : ObjectHolder Stmt)
    (w : World Stmt Ctx)
    (h : ∀ self, lhs.Get = some (.ClassInstance self) →
      ∀ m, self.cls_.GetMethod "__lt__" = some m → E1 m.body = E2 m.body) :
    Less E1 lhs rhs w = Less E2 lhs rhs w := by
  obtain ⟨l⟩ := lhs
  cases l with
  | none => rfl
  | some lo =>
    cases lo with
    | ClassInstance self =>
      simp only [Less, ObjectHolder.TryAsClassInstance, ObjectHolder.Get]
      rw [ClassInstance.Call_congr E1 E2 self "__lt__" [rhs] w (h self rfl)]
    | _ => rfl

/-- `NotEqual` is the negation of `Equal`. -/
theorem NotEqual_eq_spec (Execute : Executor Stmt Ctx) (lhs rhs : ObjectHolder Stmt)
    (w : World Stmt Ctx) :
    NotEqual Execute lhs rhs w = (Equal Execute lhs rhs w).negate := by
  unfold NotEqual Outcome.negate Outcome.andThen
  rcases Equal Execute lhs rhs w with ⟨_ | _, _⟩ <;> rfl

/-- `GreaterOrEqual` is the negation of `Less`. -/
theorem GreaterOrEqual_eq_spec (Execute : Executor Stmt Ctx) (lhs rhs : ObjectHolder Stmt)
    (w : World Stmt Ctx) :
    GreaterOrEqual Execute lhs rhs w = (Less Execute lhs rhs w).negate := by
  unfold GreaterOrEqual Outcome.negate Outcome.andThen
  rcases Less Execute lhs rhs w with ⟨_ | _, _⟩ <;> rfl

/-- `LessOrEqual` is `Less`, followed by `Equal` when `Less` returned false. -/
theorem LessOrEqual_eq_spec (Execute : Executor Stmt Ctx) (lhs rhs : ObjectHolder Stmt)
    (w : World Stmt Ctx) :
    LessOrEqual Execute lhs rhs w =
      (Less Execute lhs rhs w).andThen fun b w1 =>
        if b then (.ok true, w1) else Equal Execute lhs rhs w1 := by
  unfold LessOrEqual Outcome.andThen
  rcases Less Execute lhs rhs w with ⟨e | b, w1⟩
  · rfl
  · cases b
    · simp only [Bool.false_eq_true, if_false]
      rcases Equal Execute lhs rhs w1 with ⟨_ | _, _⟩ <;> rfl
    · rfl

/-- `Greater` is the negation of `LessOrEqual`. -/
theorem Greater_eq_spec (Execute : Executor Stmt Ctx) (lhs rhs : ObjectHolder Stmt)
    (w : World Stmt Ctx) :
    Greater Execute lhs rhs w = (LessOrEqual Execute lhs rhs w).negate := by
  unfold Greater Outcome.negate Outcome.andThen
  rcases LessOrEqual Execute lhs rhs w with ⟨_ | _, _⟩ <;> rfl

/-- A negated outcome is an error exactly when the outcome is that error. -/
theorem Outcome.negate_error_iff (r : Outcome Stmt Ctx Bool) (e : Failure)
    (w : World Stmt Ctx) : r.negate = (.error e, w) ↔ r = (.error e, w) := by
  rcases r with ⟨e1 | b, w1⟩ <;> simp [Outcome.negate, Outcome.andThen]

/-- C9. The four derived comparisons are the specified combinations of `Equal` and `Less`,
for all holders and every state: `NotEqual` is not `Equal`, `LessOrEqual` is `Less` or
`Equal` with `Equal` evaluated only when `Less` returned false, `GreaterOrEqual` is not
`Less`, `Greater` is not `LessOrEqual`. Each raises exactly when a base operation it
evaluates raises, with that error. Their outcome depends on the method bodies only through
the bodies of `__eq__` and `__lt__` of the left operand: no other hook is invoked. -/
theorem derived_comparisons_refine_spec (Execute : Executor Stmt Ctx)
    (lhs rhs : ObjectHolder Stmt) (w : World Stmt Ctx) :
    (NotEqual Execute lhs rhs w = (derivedSpec (Equal Execute) (Less Execute)).notEqual lhs rhs w ∧
     LessOrEqual Execute lhs rhs w =
       (derivedSpec (Equal Execute) (Less Execute)).lessOrEqual lhs rhs w ∧
     GreaterOrEqual Execute lhs rhs w =
       (derivedSpec (Equal Execute) (Less Execute)).greaterOrEqual lhs rhs w ∧
     Greater Execute lhs rhs w =
       (derivedSpec (Equal Execute) (Less Execute)).greater lhs rhs w) ∧
    (∀ w1, Less Execute lhs rhs w = (.ok true, w1) →
      LessOrEqual Execute lhs rhs w = (.ok true, w1)) ∧
    (∀ w1, Less Execute lhs rhs w = (.ok false, w1) →
      LessOrEqual Execute lhs rhs w = Equal Execute lhs rhs w1) ∧
    (∀ e w1, (NotEqual Execute lhs rhs w = (.error e, w1) ↔
        Equal Execute lhs rhs w = (.error e, w1)) ∧
      (GreaterOrEqual Execute lhs rhs w = (.error e, w1) ↔
        Less Execute lhs rhs w = (.error e, w1)) ∧
      (Greater Execute lhs rhs w = (.error e, w1) ↔
        LessOrEqual Execute lhs rhs w = (.error e, w1)) ∧
      (LessOrEqual Execute lhs rhs w = (.error e, w1) ↔
        (Less Execute lhs rhs w = (.error e, w1) ∨
          ∃ w2, Less Execute lhs rhs w = (.ok false, w2) ∧
            Equal Execute lhs rhs w2 = (.error e, w1)))) ∧
    (∀ Other : Executor Stmt Ctx,
      (∀ self, lhs.Get = some (.ClassInstance self) → ∀ m,
        (self.cls_.GetMethod "__eq__" = some m ∨ self.cls_.GetMethod "__lt__" = some m) →
          Execute m.body = Other m.body) →
      NotEqual Execute lhs rhs w = NotEqual Other lhs rhs w ∧
      LessOrEqual Execute lhs rhs w = LessOrEqual Other lhs rhs w ∧
      GreaterOrEqual Execute lhs rhs w = GreaterOrEqual Other lhs rhs w ∧
      Greater Execute lhs rhs w = Greater Other lhs rhs w) := by
  have hLE := LessOrEqual_eq_spec Execute lhs rhs w
  refine ⟨⟨NotEqual_eq_spec Execute lhs rhs w, hLE, GreaterOrEqual_eq_spec Execute lhs rhs w,
    ?_⟩, ?_, ?_, ?_, ?_⟩
  · rw [Greater_eq_spec, hLE]
    rfl
  · intro w1 h1
    rw [hLE, h1]
    rfl
  · intro w1 h1
    rw [hLE, h1]
    rfl
  · intro e w1
    refine ⟨?_, ?_, ?_, ?_⟩
    · rw [NotEqual_eq_spec]
      exact Outcome.negate_error_iff _ e w1
    · rw [GreaterOrEqual_eq_spec]
      exact Outcome.negate_error_iff _ e w1
    · rw [Greater_eq_spec]
      exact Outcome.negate_error_iff _ e w1
    · rw [hLE]
      rcases Less Execute lhs rhs w with ⟨e1 | b, w2⟩
      · simp [Outcome.andThen]
      · cases b <;> simp [Outcome.andThen]
  · intro Other h
    have hE : ∀ w1, Equal Execute lhs rhs w1 = Equal Other lhs rhs w1 := fun w1 =>
      Equal_congr Execute Other lhs rhs w1 (fun self hs m hm => h self hs m (Or.inl hm))
    have hL : ∀ w1, Less Execute lhs rhs w1 = Less Other lhs rhs w1 := fun w1 =>
      Less_congr Execute Other lhs rhs w1 (fun self hs m hm => h self hs m (Or.inr hm))
    have hLE2 : LessOrEqual Execute lhs rhs w = LessOrEqual Other lhs rhs w := by
      rw [hLE, LessOrEqual_eq_spec Other lhs rhs w, hL w]
      congr 1
      funext b w1
      rw [hE w1]
    refine ⟨?_, hLE2, ?_, ?_⟩
    · rw [NotEqual_eq_spec, NotEqual_eq_spec, hE w]
    · rw [GreaterOrEqual_eq_spec, GreaterOrEqual_eq_spec, hL w]
    · rw [Greater_eq_spec, Greater_eq_spec, hLE2]

/-- C9 on the sample instances. For Child, `__lt__` returns a false value and `__eq__` a true
one: `LessOrEqual` executes both bodies and is true, `Greater` is false, `NotEqual` is false,
`GreaterOrEqual` is true after one body. For Ordered, `__lt__` returns True and `__eq__`
raises: `LessOrEqual` is true after one body, `__eq__` is not evaluated, while `NotEqual`
raises the error of `__eq__`. For two Numbers no body is executed. -/
theorem derived_comparisons_refine_spec_witness :
    LessOrEqual (Sample.Execute 1) ⟨some (.ClassInstance Sample.child)⟩ ⟨some (.Number 5)⟩
      Sample.w0 = (.ok true, ⟨[], 2, []⟩) ∧
    Greater (Sample.Execute 1) ⟨some (.ClassInstance Sample.child)⟩ ⟨some (.Number 5)⟩
      Sample.w0 = (.ok false, ⟨[], 2, []⟩) ∧
    NotEqual (Sample.Execute 1) ⟨some (.ClassInstance Sample.child)⟩ ⟨some (.Number 5)⟩
      Sample.w0 = (.ok false, ⟨[], 1, []⟩) ∧
    GreaterOrEqual (Sample.Execute 1) ⟨some (.ClassInstance Sample.child)⟩
      ⟨some (.Number 5)⟩ Sample.w0 = (.ok true, ⟨[], 1, []⟩) ∧
    LessOrEqual (Sample.Execute 1) ⟨some (.ClassInstance Sample.ordered)⟩ ObjectHolder.None
      Sample.w0 = (.ok true, ⟨[], 1, []⟩) ∧
    NotEqual (Sample.Execute 1) ⟨some (.ClassInstance Sample.ordered)⟩ ObjectHolder.None
      Sample.w0 = (.error (.runtime_error "boom"), ⟨[], 1, []⟩) ∧
    Greater (Sample.Execute 1) ⟨some (.Number 3)⟩ ⟨some (.Number 2)⟩ Sample.w0 =
      (.ok true, Sample.w0) :=
  ⟨((derived_comparisons_refine_spec (Sample.Execute 1)
      ⟨some (.ClassInstance Sample.child)⟩ ⟨some (.Number 5)⟩ Sample.w0).1.2.1).trans rfl,
   ((derived_comparisons_refine_spec (Sample.Execute 1)
      ⟨some (.ClassInstance Sample.child)⟩ ⟨some (.Number 5)⟩ Sample.w0).1.2.2.2).trans rfl,
   ((derived_comparisons_refine_spec (Sample.Execute 1)
      ⟨some (.ClassInstance Sample.child)⟩ ⟨some (.Number 5)⟩ Sample.w0).1.1).trans rfl,
   ((derived_comparisons_refine_spec (Sample.Execute 1)
      ⟨some (.ClassInstance Sample.child)⟩ ⟨some (.Number 5)⟩ Sample.w0).1.2.2.1).trans rfl,
   (derived_comparisons_refine_spec (Sample.Execute 1)
      ⟨some (.ClassInstance Sample.ordered)⟩ ObjectHolder.None Sample.w0).2.1 _ rfl,
   ((derived_comparisons_refine_spec (Sample.Execute 1)
      ⟨some (.ClassInstance Sample.ordered)⟩ ObjectHolder.None Sample.w0).2.2.2.1
      (.runtime_error "boom") ⟨[], 1, []⟩).1.mpr rfl,
   ((derived_comparisons_refine_spec (Sample.Execute 1)
      ⟨some (.Number 3)⟩ ⟨some (.Number 2)⟩ Sample.w0).1.2.2.2).trans rfl⟩

end Derived

/-! ## Printing an instance -/

section Printing

variable {Stmt Ctx : Type}

/-- C10. `ClassInstance::Print`, reached through the virtual `Print` of an instance. If
`HasMethod("__str__", 0)` holds, it makes the one call `Call("__str__", [])`, which is one
execution of the body of the resolved `__str__` on the closure holding only `self`, and then
is the `Print` of the object the call returned, in the state the call left: it writes what
that `Print` writes; an error of the call is passed on and a null result cannot be printed.
For a returned Number, String, Bool or Class one more level of nesting suffices for the
result. Otherwise, that is when no class of the chain declares `__str__` or the resolved
`__str__` declares one or more parameters, it writes the identity of the instance, whatever
the method bodies are: none is executed. -/
theorem Print_of_instance (Execute : Executor Stmt Ctx) (fuel : Nat)
    (self : ClassInstance Stmt) (w : World Stmt Ctx) :
    (self.HasMethod "__str__" 0 = true →
      Object.Print Execute (fuel + 1) (.ClassInstance self) w =
        (self.Call Execute "__str__" [] w).andThen fun r w1 =>
          match r.Get with
          | some object => Object.Print Execute fuel object w1
          | none => (.error .null_dereference, w1)) ∧
    (self.HasMethod "__str__" 0 = true →
      ∃ m, self.cls_.GetMethod "__str__" = some m ∧ m.formal_params = [] ∧
        self.Call Execute "__str__" [] w =
          Execute m.body [("self", ObjectHolder.Share (.ClassInstance self))] w) ∧
    (self.HasMethod "__str__" 0 = true →
      ∀ r w1 object, self.Call Execute "__str__" [] w = (.ok r, w1) → r.Get = some object →
        (∀ inst, object ≠ .ClassInstance inst) →
        Object.Print Execute (fuel + 2) (.ClassInstance self) w =
          Object.Print Execute 1 object w1) ∧
    (self.HasMethod "__str__" 0 = false →
      ∀ Any : Executor Stmt Ctx,
        Object.Print Any (fuel + 1) (.ClassInstance self) w =
          (.ok (), w.write (.pointer self.this))) ∧
    (self.HasMethod "__str__" 0 = false ↔
      (self.cls_.GetMethod "__str__" = none ∨
        ∃ m, self.cls_.GetMethod "__str__" = some m ∧ 1 ≤ m.formal_params.length)) := by
  have hP : ∀ (E : Executor Stmt Ctx) (n : Nat),
      Object.Print E (n + 1) (.ClassInstance self) w =
        ClassInstance.Print E (Object.Print E n) self w := fun _ _ => rfl
  refine ⟨?_, ?_, ?_, ?_, ?_⟩
  · intro h
    rw [hP]
    simp [ClassInstance.Print, h]
  · intro h
    obtain ⟨m, hm, hlen, hc⟩ := ClassInstance.Call_of_HasMethod Execute self "__str__" [] w h
    have hnil : m.formal_params = [] := List.length_eq_zero.mp hlen
    refine ⟨m, hm, hnil, ?_⟩
    rw [hc, hnil]
    rfl
  · intro h r w1 object hc hr hobj
    rw [hP]
    simp only [ClassInstance.Print, h, beq_self_eq_true, if_true, hc, Outcome.andThen, hr]
    cases object with
    | ClassInstance i => exact absurd rfl (hobj i)
    | _ => rfl
  · intro h Any
    rw [hP]
    simp [ClassInstance.Print, h]
  · rw [ClassInstance.HasMethod_eq]
    cases self.cls_.GetMethod "__str__" with
    | none => simp
    | some m =>
      simp only [decide_eq_false_iff_not, false_or, Option.some.injEq, exists_eq_left',
        reduceCtorEq]
      omega

/-- C10 on the sample instances. Child has `__str__()` returning the String "child": `Print`
writes that text after one body execution. Parent has no `__str__` and Labelled declares
`__str__(x)` with a parameter: `Print` writes the address and executes no body. -/
theorem Print_of_instance_witness :
    Object.Print (Sample.Execute 1) 2 (.ClassInstance Sample.child) Sample.w0 =
      (.ok (), ⟨[.text "child"], 1, []⟩) ∧
    Object.Print (Sample.Execute 1) 1 (.ClassInstance Sample.parent) Sample.w0 =
      (.ok (), ⟨[.pointer 8], 0, []⟩) ∧
    Object.Print (Sample.Execute 1) 1 (.ClassInstance Sample.labelled) Sample.w0 =
      (.ok (), ⟨[.pointer 5], 0, []⟩) :=
  ⟨((Print_of_instance (Sample.Execute 1) 1 Sample.child Sample.w0).1 (by decide)).trans rfl,
   (Print_of_instance (Sample.Execute 1) 0 Sample.parent Sample.w0).2.2.2.1 (by decide) _,
   (Print_of_instance (Sample.Execute 1) 0 Sample.labelled Sample.w0).2.2.2.1 (by decide) _⟩

end Printing

/-! ## Holders -/

section Holders

variable {Stmt Ctx : Type}

/-- C13, as stated, fails in a build that defines `NDEBUG`: the assertion of `AssertIsValid`
is compiled out, so `operator->` of the null holder `None()` does not fail but returns the
null pointer `Get()`, and `operator*` goes on to form a reference from that null pointer. -/
theorem null_holder_dereference_returns_with_NDEBUG :
    (ObjectHolder.None : ObjectHolder Sample.Stmt).toBool = false ∧
    (ObjectHolder.None : ObjectHolder Sample.Stmt).AssertIsValid true = .ok () ∧
    (ObjectHolder.None : ObjectHolder Sample.Stmt).arrow true = .ok none ∧
    (ObjectHolder.None : ObjectHolder Sample.Stmt).deref true = .ok none ∧
    ¬ ∃ e, (ObjectHolder.None : ObjectHolder Sample.Stmt).arrow true = .error e := by
  refine ⟨rfl, rfl, rfl, rfl, ?_⟩
  rintro ⟨e, he⟩
  cases he

/-- C13, amended. `ObjectHolder::None()` is a null holder: its conversion to bool is false and
`Get()` is null. `ObjectHolder::Share(obj)` is a non-null holder whose `Get()` is `obj`
itself. For every non-null holder `operator*` and `operator->` return the held object, in
every build. For a null holder they fail, by the assertion of `AssertIsValid` and by nothing
else, in a build that compiles assertions in (`NDEBUG` not defined); with `NDEBUG` defined
nothing is checked and both go on with the null pointer `Get()`. A dereference fails exactly
when `AssertIsValid` fails, and one that yields an object yields the one the holder refers
to, never a default. -/
theorem ObjectHolder_nullness_and_dereference (NDEBUG : Bool) :
    ((ObjectHolder.None : ObjectHolder Stmt).toBool = false ∧
      (ObjectHolder.None : ObjectHolder Stmt).Get = none) ∧
    (∀ object : Object Stmt,
      (ObjectHolder.Share object).toBool = true ∧
      (ObjectHolder.Share object).Get = some object ∧
      (ObjectHolder.Share object).deref NDEBUG = .ok (some object) ∧
      (ObjectHolder.Share object).arrow NDEBUG = .ok (some object)) ∧
    (∀ h : ObjectHolder Stmt, h.toBool = true →
      ∃ object, h.Get = some object ∧ h.deref NDEBUG = .ok (some object) ∧
        h.arrow NDEBUG = .ok (some object)) ∧
    (∀ h : ObjectHolder Stmt, h.toBool = false →
      h.AssertIsValid false = .error .assertion_failed ∧
      h.deref false = .error .assertion_failed ∧ h.arrow false = .error .assertion_failed) ∧
    (∀ h : ObjectHolder Stmt, h.toBool = false →
      h.AssertIsValid true = .ok () ∧ h.deref true = .ok none ∧ h.arrow true = .ok none) ∧
    (∀ (h : ObjectHolder Stmt) (e : Failure),
      (h.deref NDEBUG = .error e ↔ h.AssertIsValid NDEBUG = .error e) ∧
      (h.arrow NDEBUG = .error e ↔ h.AssertIsValid NDEBUG = .error e)) ∧
    (∀ (h : ObjectHolder Stmt) (object : Object Stmt),
      (h.deref NDEBUG = .ok (some object) → h.Get = some object) ∧
      (h.arrow NDEBUG = .ok (some object) → h.Get = some object)) := by
  refine ⟨⟨rfl, rfl⟩, fun object => ?_, ?_, ?_, ?_, ?_, ?_⟩
  · cases NDEBUG <;> exact ⟨rfl, rfl, rfl, rfl⟩
  · rintro ⟨d⟩ h
    cases d with
    | none => simp [ObjectHolder.toBool, ObjectHolder.Get] at h
    | some o => cases NDEBUG <;> exact ⟨o, rfl, rfl, rfl⟩
  · rintro ⟨d⟩ h
    cases d with
    | none => exact ⟨rfl, rfl, rfl⟩
    | some o => simp [ObjectHolder.toBool, ObjectHolder.Get] at h
  · rintro ⟨d⟩ h
    cases d with
    | none => exact ⟨rfl, rfl, rfl⟩
    | some o => simp [ObjectHolder.toBool, ObjectHolder.Get] at h
  · intro h e
    unfold ObjectHolder.deref ObjectHolder.arrow
    cases h.AssertIsValid NDEBUG with
    | error e2 => simp
    | ok u => simp
  · intro h object
    unfold ObjectHolder.deref ObjectHolder.arrow
    cases h.AssertIsValid NDEBUG with
    | error e2 => simp
    | ok u => simp

end Holders

/-! ## The binding of `self` in the fields of an instance -/

section SelfBinding

variable {Stmt Ctx : Type}

/-- The fields of an instance are not touched by a write to the output stream. -/
theorem ClassInstance.Fields_write (self : ClassInstance Stmt) (w : World Stmt Ctx)
    (item : Output) : self.Fields (w.write item) = self.Fields w := rfl

/-- The fields right after construction: the single entry `self`. -/
theorem ClassInstance.Fields_new (cls : Class Stmt) (this : Addr) (w : World Stmt Ctx) :
    (ClassInstance.new cls this w).1.Fields (ClassInstance.new cls this w).2 =
      [("self", ObjectHolder.Share (.ClassInstance (ClassInstance.new cls this w).1))] := by
  simp [ClassInstance.new, ClassInstance.Fields, Closure.assign]

/-- `Call` keeps every property of the state that the execution of each body keeps. -/
theorem ClassInstance.Call_preserves (Execute : Executor Stmt Ctx)
    (P : World Stmt Ctx → Prop)
    (hbody : ∀ stmt closure w, P w → P (Execute stmt closure w).2)
    (self : ClassInstance Stmt) (method : String) (args : List (ObjectHolder Stmt))
    (w : World Stmt Ctx) (hw : P w) : P (self.Call Execute method args w).2 := by
  cases hh : self.HasMethod method args.length with
  | false =>
    rw [ClassInstance.Call_of_not_HasMethod Execute self method args w hh]
    exact hw
  | true =>
    obtain ⟨m, _, _, hc⟩ := ClassInstance.Call_of_HasMethod Execute self method args w hh
    rw [hc]
    exact hbody _ _ _ hw

/-- The virtual `Print` keeps every property of the state that the execution of each body and
each write to the output stream keep. -/
theorem Object.Print_preserves (Execute : Executor Stmt Ctx) (P : World Stmt Ctx → Prop)
    (hbody : ∀ stmt closure w, P w → P (Execute stmt closure w).2)
    (hwrite : ∀ w item, P w → P (w.write item)) :
    ∀ (fuel : Nat) (object : Object Stmt) (w : World Stmt Ctx), P w →
      P (Object.Print Execute fuel object w).2 := by
  intro fuel
  induction fuel with
  | zero => intro object w hw; exact hw
  | succ n ih =>
    intro object w hw
    cases object with
    | Number v => exact hwrite _ _ hw
    | String s => exact hwrite _ _ hw
    | Bool b => exact hwrite _ _ hw
    | Class c => exact hwrite _ _ (hwrite _ _ hw)
    | ClassInstance self =>
      show P (ClassInstance.Print Execute (Object.Print Execute n) self w).2
      unfold ClassInstance.Print
      by_cases hs : self.HasMethod "__str__" 0 = true
      · have hc := ClassInstance.Call_preserves Execute P hbody self "__str__" [] w hw
        simp only [hs, beq_self_eq_true, if_true]
        rcases hcall : self.Call Execute "__str__" [] w with ⟨e | r, w1⟩
        · rw [hcall] at hc
          exact hc
        · rw [hcall] at hc
          simp only [Outcome.andThen]
          cases hr : r.Get with
          | none => exact hc
          | some o => exact ih o w1 hc
      · have hf : (self.HasMethod "__str__" 0 == true) = false := by simpa using hs
        simp only [hf, Bool.false_eq_true, if_false]
        exact hwrite _ _ hw

/-- Every operation of the instance keeps a property of the state that bodies and writes to
the output stream keep. -/
theorem ClassInstance.perform_preserves (Execute : Executor Stmt Ctx)
    (P : World Stmt Ctx → Prop)
    (hbody : ∀ stmt closure w, P w → P (Execute stmt closure w).2)
    (hwrite : ∀ w item, P w → P (w.write item))
    (self : ClassInstance Stmt) (op : Operation Stmt) (w : World Stmt Ctx) (hw : P w) :
    P (self.perform Execute op w) := by
  cases op with
  | HasMethod m n => exact hw
  | Print fuel => exact Object.Print_preserves Execute P hbody hwrite fuel _ w hw
  | Call m args => exact ClassInstance.Call_preserves Execute P hbody self m args w hw

/-- The sample bodies change nothing but the context. -/
theorem Sample.Execute_heap :
    ∀ (fuel : Nat) (stmt : Sample.Stmt) (closure : Closure Sample.Stmt)
      (w : World Sample.Stmt Nat), (Sample.Execute fuel stmt closure w).2.heap = w.heap := by
  intro fuel
  induction fuel with
  | zero => intro stmt closure w; rfl
  | succ n ih =>
    intro stmt closure w
    cases stmt with
    | returnVariable name =>
      simp only [Sample.Execute]
      cases Closure.find closure name <;> rfl
    | callSelf method =>
      simp only [Sample.Execute]
      cases Closure.find closure "self" with
      | none => rfl
      | some h =>
        simp only
        cases h.TryAsClassInstance with
        | none => rfl
        | some self =>
          exact ClassInstance.Call_preserves (Sample.Execute n)
            (fun w1 => w1.heap = w.heap) (fun stmt closure w1 h1 => (ih stmt closure w1).trans h1)
            self method [] _ rfl
    | _ => rfl

/-- C14. Right after construction the fields of an instance hold the key `self`, bound to a
holder that refers to the instance itself, and no other key. `HasMethod`, `Print` and `Call`
of the instance do not write to the fields themselves: with method bodies that leave the
fields of the instance as they are, each of the three operations leaves them as they are, so
the binding of `self` holds in every state reached by any sequence of these operations. -/
theorem self_binding_invariant (Execute : Executor Stmt Ctx) (cls : Class Stmt) (this : Addr)
    (w : World Stmt Ctx)
    (hbody : ∀ stmt closure w1,
      ClassInstance.Fields ⟨this, cls⟩ (Execute stmt closure w1).2 =
        ClassInstance.Fields ⟨this, cls⟩ w1) :
    (ClassInstance.new cls this w).1 = ⟨this, cls⟩ ∧
    ClassInstance.Fields ⟨this, cls⟩ (ClassInstance.new cls this w).2 =
      [("self", ObjectHolder.Share (.ClassInstance ⟨this, cls⟩))] ∧
    Closure.find (ClassInstance.Fields ⟨this, cls⟩ (ClassInstance.new cls this w).2) "self" =
      some (ObjectHolder.Share (.ClassInstance ⟨this, cls⟩)) ∧
    (∀ k, k ≠ "self" →
      Closure.find (ClassInstance.Fields ⟨this, cls⟩ (ClassInstance.new cls this w).2) k =
        none) ∧
    (∀ (op : Operation Stmt) (w1 : World Stmt Ctx),
      ClassInstance.Fields ⟨this, cls⟩ (ClassInstance.perform Execute ⟨this, cls⟩ op w1) =
        ClassInstance.Fields ⟨this, cls⟩ w1) ∧
    (∀ ops : List (Operation Stmt),
      ClassInstance.Fields ⟨this, cls⟩
          (ClassInstance.performAll Execute ⟨this, cls⟩ ops (ClassInstance.new cls this w).2) =
        [("self", ObjectHolder.Share (.ClassInstance ⟨this, cls⟩))]) := by
  have hnew : ClassInstance.Fields ⟨this, cls⟩ (ClassInstance.new cls this w).2 =
      [("self", ObjectHolder.Share (.ClassInstance ⟨this, cls⟩))] :=
    ClassInstance.Fields_new cls this w
  have hop : ∀ (F : Closure Stmt) (op : Operation Stmt) (w1 : World Stmt Ctx),
      ClassInstance.Fields ⟨this, cls⟩ w1 = F →
      ClassInstance.Fields ⟨this, cls⟩ (ClassInstance.perform Execute ⟨this, cls⟩ op w1) = F :=
    fun F op w1 h1 =>
      ClassInstance.perform_preserves Execute
        (fun w2 => ClassInstance.Fields ⟨this, cls⟩ w2 = F)
        (fun stmt closure w2 h2 => (hbody stmt closure w2).trans h2)
        (fun w2 item h2 => h2) ⟨this, cls⟩ op w1 h1
  refine ⟨rfl, hnew, ?_, ?_, fun op w1 => hop _ op w1 rfl, ?_⟩
  · rw [show ClassInstance.Fields ⟨this, cls⟩ (ClassInstance.new cls this w).2 = _ from hnew]
    simp [Closure.find]
  · intro k hk
    rw [hnew]
    have hk2 : ¬ "self" = k := fun e => hk e.symm
    simp [Closure.find, hk2]
  · intro ops
    have hall : ∀ (l : List (Operation Stmt)) (w1 : World Stmt Ctx),
        ClassInstance.Fields ⟨this, cls⟩ w1 =
          [("self", ObjectHolder.Share (.ClassInstance ⟨this, cls⟩))] →
        ClassInstance.Fields ⟨this, cls⟩
            (ClassInstance.performAll Execute ⟨this, cls⟩ l w1) =
          [("self", ObjectHolder.Share (.ClassInstance ⟨this, cls⟩))] := by
      intro l
      induction l with
      | nil => intro w1 h1; exact h1
      | cons op rest ih =>
        intro w1 h1
        exact ih _ (hop _ op w1 h1)
    exact hall ops _ hnew

/-- C14 on the sample class Child, built at address 7: after a query, a call that runs a
body, a printing through `__str__` and a call that raises, the fields still hold exactly
`self` bound to the instance. -/
theorem self_binding_invariant_witness :
    ClassInstance.Fields Sample.child
        (ClassInstance.performAll (Sample.Execute 2) Sample.child
          [.HasMethod "f" 1, .Call "f" [ObjectHolder.None], .Print 2, .Call "missing" []]
          (ClassInstance.new Sample.Child 7 Sample.w0).2) =
      [("self", ObjectHolder.Share (.ClassInstance Sample.child))] :=
  (self_binding_invariant (Sample.Execute 2) Sample.Child 7 Sample.w0
    (fun stmt closure w1 => by
      simp only [ClassInstance.Fields, Sample.Execute_heap 2 stmt closure w1])).2.2.2.2.2 _

end SelfBinding

/-! ## The order of the built-in values -/

section BuiltinTotalOrder

variable {Stmt Ctx : Type}

/-- The derived comparisons when both base operations return without changing the state. -/
theorem derived_of_base (Execute : Executor Stmt Ctx) (lhs rhs : ObjectHolder Stmt)
    (w : World Stmt Ctx) (lt eq : Bool) (hL : Less Execute lhs rhs w = (.ok lt, w))
    (hE : Equal Execute lhs rhs w = (.ok eq, w)) :
    NotEqual Execute lhs rhs w = (.ok (!eq), w) ∧
    LessOrEqual Execute lhs rhs w = (.ok (lt || eq), w) ∧
    Greater Execute lhs rhs w = (.ok (!(lt || eq)), w) ∧
    GreaterOrEqual Execute lhs rhs w = (.ok (!lt), w) := by
  have hLE : LessOrEqual Execute lhs rhs w = (.ok (lt || eq), w) := by
    rw [LessOrEqual_eq_spec, hL]
    cases lt
    · simp [Outcome.andThen, hE]
    · simp [Outcome.andThen]
  refine ⟨?_, hLE, ?_, ?_⟩
  · rw [NotEqual_eq_spec, hE]; rfl
  · rw [Greater_eq_spec, hLE]; rfl
  · rw [GreaterOrEqual_eq_spec, hL]; rfl

/-- Strict order and equality of a linear order, as truth values. -/
theorem linear_order_bools {α : Type} [LinearOrder α] (a b : α) [Decidable (a < b)]
    [Decidable (a = b)] [Decidable (b < a)] [Decidable (b = a)] :
    (decide (a < b) = true → decide (a = b) = false) ∧
    (!(decide (a < b) || decide (a = b))) = decide (b < a) ∧
    (!decide (a < b)) = (decide (b < a) || decide (b = a)) := by
  rcases lt_trichotomy a b with h | h | h
  · have h1 : a ≠ b := ne_of_lt h
    have h2 : ¬ b < a := not_lt_of_lt h
    have h3 : ¬ b = a := fun e => h1 e.symm
    simp [h, h1, h2, h3]
  · subst h
    simp
  · have h1 : a ≠ b := ne_of_gt h
    have h2 : ¬ a < b := not_lt_of_lt h
    have h3 : ¬ b = a := fun e => h1 e.symm
    simp [h, h1, h2, h3]

/-- The three facts of `linear_order_bools` for each kind of built-in value and the
comparators `less` and `equal_to`. -/
theorem Comparator.order_facts :
    (∀ a b : Int,
      (Comparator.less.onNumber a b = true → Comparator.equal_to.onNumber a b = false) ∧
      (!(Comparator.less.onNumber a b || Comparator.equal_to.onNumber a b)) =
        Comparator.less.onNumber b a ∧
      (!Comparator.less.onNumber a b) =
        (Comparator.less.onNumber b a || Comparator.equal_to.onNumber b a)) ∧
    (∀ a b : String,
      (Comparator.less.onString a b = true → Comparator.equal_to.onString a b = false) ∧
      (!(Comparator.less.onString a b || Comparator.equal_to.onString a b)) =
        Comparator.less.onString b a ∧
      (!Comparator.less.onString a b) =
        (Comparator.less.onString b a || Comparator.equal_to.onString b a)) ∧
    (∀ a b : Bool,
      (Comparator.less.onBool a b = true → Comparator.equal_to.onBool a b = false) ∧
      (!(Comparator.less.onBool a b || Comparator.equal_to.onBool a b)) =
        Comparator.less.onBool b a ∧
      (!Comparator.less.onBool a b) =
        (Comparator.less.onBool b a || Comparator.equal_to.onBool b a)) := by
  refine ⟨fun a b => ?_, fun a b => ?_, fun a b => ?_⟩
  · simp only [Comparator.onNumber]
    exact linear_order_bools a b
  · have hd : ∀ x y : String, decide (x = y) = decide (x.data = y.data) := fun x y =>
      decide_eq_decide.mpr ⟨fun e => e ▸ rfl, fun e => String.ext e⟩
    have hab := hd a b
    have hba := hd b a
    simp only [Comparator.onString, hab, hba]
    exact linear_order_bools a.data b.data
  · cases a <;> cases b <;> decide

/-- The relations between the six comparisons, from the values of the two base operations in
both directions. -/
theorem total_order_of_base (Execute : Executor Stmt Ctx) (lhs rhs : ObjectHolder Stmt)
    (w : World Stmt Ctx) (lt eq lt2 eq2 : Bool)
    (hL : Less Execute lhs rhs w = (.ok lt, w)) (hE : Equal Execute lhs rhs w = (.ok eq, w))
    (hL2 : Less Execute rhs lhs w = (.ok lt2, w))
    (hE2 : Equal Execute rhs lhs w = (.ok eq2, w))
    (f1 : lt = true → eq = false) (f2 : (!(lt || eq)) = lt2) (f3 : (!lt) = (lt2 || eq2)) :
    ∃ lt eq gt : Bool,
      Less Execute lhs rhs w = (.ok lt, w) ∧ Equal Execute lhs rhs w = (.ok eq, w) ∧
      Greater Execute lhs rhs w = (.ok gt, w) ∧
      (∃ ne le ge : Bool, NotEqual Execute lhs rhs w = (.ok ne, w) ∧
        LessOrEqual Execute lhs rhs w = (.ok le, w) ∧
        GreaterOrEqual Execute lhs rhs w = (.ok ge, w) ∧ ne = (lt || gt)) ∧
      ((lt = true ∧ eq = false ∧ gt = false) ∨ (lt = false ∧ eq = true ∧ gt = false) ∨
        (lt = false ∧ eq = false ∧ gt = true)) ∧
      Greater Execute lhs rhs w = Less Execute rhs lhs w ∧
      GreaterOrEqual Execute lhs rhs w = LessOrEqual Execute rhs lhs w := by
  obtain ⟨hNE, hLE, hG, hGE⟩ := derived_of_base Execute lhs rhs w lt eq hL hE
  obtain ⟨_, hLE2, _, _⟩ := derived_of_base Execute rhs lhs w lt2 eq2 hL2 hE2
  refine ⟨lt, eq, !(lt || eq), hL, hE, hG, ⟨!eq, lt || eq, !lt, hNE, hLE, hGE, ?_⟩, ?_, ?_, ?_⟩
  · cases lt <;> cases eq <;> simp_all
  · cases lt <;> cases eq <;> simp_all
  · rw [hG, hL2, f2]
  · rw [hGE, hLE2, f3]

/-- C17. For two built-in values of the same kind (Number/Number, String/String, Bool/Bool)
none of the six comparisons raises and none changes the state; exactly one of `Less`,
`Equal`, `Greater` is true; `Greater(a, b)` is `Less(b, a)`; `GreaterOrEqual(a, b)` is
`LessOrEqual(b, a)`; and `NotEqual(a, b)` is `Less(a, b)` or `Greater(a, b)`. -/
theorem builtin_values_total_order (Execute : Executor Stmt Ctx) (lhs rhs : ObjectHolder Stmt)
    (w : World Stmt Ctx) (h : sameKind lhs rhs = true) :
    ∃ lt eq gt : Bool,
      Less Execute lhs rhs w = (.ok lt, w) ∧ Equal Execute lhs rhs w = (.ok eq, w) ∧
      Greater Execute lhs rhs w = (.ok gt, w) ∧
      (∃ ne le ge : Bool, NotEqual Execute lhs rhs w = (.ok ne, w) ∧
        LessOrEqual Execute lhs rhs w = (.ok le, w) ∧
        GreaterOrEqual Execute lhs rhs w = (.ok ge, w) ∧ ne = (lt || gt)) ∧
      ((lt = true ∧ eq = false ∧ gt = false) ∨ (lt = false ∧ eq = true ∧ gt = false) ∨
        (lt = false ∧ eq = false ∧ gt = true)) ∧
      Greater Execute lhs rhs w = Less Execute rhs lhs w ∧
      GreaterOrEqual Execute lhs rhs w = LessOrEqual Execute rhs lhs w := by
  obtain ⟨hN, hS, hB⟩ := Comparator.order_facts
  obtain ⟨l⟩ := lhs
  obtain ⟨r⟩ := rhs
  cases l with
  | none => simp [sameKind, ObjectHolder.Get] at h
  | some lo =>
    cases r with
    | none => cases lo <;> simp [sameKind, ObjectHolder.Get] at h
    | some ro =>
      cases lo with
      | Number a =>
        cases ro with
        | Number b =>
          obtain ⟨f1, f2, f3⟩ := hN a b
          exact total_order_of_base Execute _ _ w _ _ _ _ rfl rfl rfl rfl f1 f2 f3
        | _ => simp [sameKind, ObjectHolder.Get] at h
      | String a =>
        cases ro with
        | String b =>
          obtain ⟨f1, f2, f3⟩ := hS a b
          exact total_order_of_base Execute _ _ w _ _ _ _ rfl rfl rfl rfl f1 f2 f3
        | _ => simp [sameKind, ObjectHolder.Get] at h
      | Bool a =>
        cases ro with
        | Bool b =>
          obtain ⟨f1, f2, f3⟩ := hB a b
          exact total_order_of_base Execute _ _ w _ _ _ _ rfl rfl rfl rfl f1 f2 f3
        | _ => simp [sameKind, ObjectHolder.Get] at h
      | Class c => cases ro <;> simp [sameKind, ObjectHolder.Get] at h
      | ClassInstance i => cases ro <;> simp [sameKind, ObjectHolder.Get] at h

/-- C17 on the Numbers 1 and 2: `Greater(2, 1)` is `Less(1, 2)`, which is true, and
`GreaterOrEqual(1, 2)` is `LessOrEqual(2, 1)`, which is false. -/
theorem builtin_values_total_order_witness :
    Greater (Sample.Execute 1) ⟨some (.Number 2)⟩ ⟨some (.Number 1)⟩ Sample.w0 =
      (.ok true, Sample.w0) ∧
    GreaterOrEqual (Sample.Execute 1) ⟨some (.Number 1)⟩ ⟨some (.Number 2)⟩ Sample.w0 =
      (.ok false, Sample.w0) := by
  obtain ⟨_, _, _, _, _, _, _, _, hG, _⟩ :=
    builtin_values_total_order (Sample.Execute 1) ⟨some (.Number 2)⟩ ⟨some (.Number 1)⟩
      Sample.w0 rfl
  obtain ⟨_, _, _, _, _, _, _, _, _, hGE⟩ :=
    builtin_values_total_order (Sample.Execute 1) ⟨some (.Number 1)⟩ ⟨some (.Number 2)⟩
      Sample.w0 rfl
  exact ⟨hG.trans rfl, hGE.trans rfl⟩

/-- C18. For two null holders `Equal` returns true and `NotEqual` returns false, while
`Less`, `LessOrEqual`, `GreaterOrEqual` and `Greater` all raise "Cannot compare objects for
less": `LessOrEqual` does not fall back to `Equal` when `Less` raises. No state is changed. -/
theorem comparisons_of_null_holders (Execute : Executor Stmt Ctx) (w : World Stmt Ctx) :
    Equal Execute ObjectHolder.None ObjectHolder.None w = (.ok true, w) ∧
    NotEqual Execute ObjectHolder.None ObjectHolder.None w = (.ok false, w) ∧
    Less Execute ObjectHolder.None ObjectHolder.None w =
      (.error (.runtime_error "Cannot compare objects for less"), w) ∧
    LessOrEqual Execute ObjectHolder.None ObjectHolder.None w =
      (.error (.runtime_error "Cannot compare objects for less"), w) ∧
    GreaterOrEqual Execute ObjectHolder.None ObjectHolder.None w =
      (.error (.runtime_error "Cannot compare objects for less"), w) ∧
    Greater Execute ObjectHolder.None ObjectHolder.None w =
      (.error (.runtime_error "Cannot compare objects for less"), w) :=
  ⟨rfl, rfl, rfl, rfl, rfl, rfl⟩

end BuiltinTotalOrder

/-! ## Arity and overriding -/

section NearestArity

variable {Stmt Ctx : Type}

/-- The chain of a class: the class, then the chain of its parent. -/
theorem Class.chain_eq (c : Class Stmt) :
    c.chain = c :: (match c.parent_ with
      | some p => p.chain
      | none => []) := by
  cases c with
  | mk n ms p => cases p <;> rfl

/-- The lookup returns the first own method of the name in the nearest class of the chain
that declares the name. -/
theorem Class.GetMethod_of_chain (name : String) (k : Class Stmt) (post : List (Class Stmt))
    (m : Method Stmt) (hk : k.methods_.find? (fun x => x.name == name) = some m) :
    ∀ (pre : List (Class Stmt)) (c : Class Stmt), c.chain = pre ++ k :: post →
      (∀ x ∈ pre, ¬ x.declares name) → c.GetMethod name = some m := by
  intro pre
  induction pre with
  | nil =>
    intro c hc _
    rw [Class.chain_eq] at hc
    simp only [List.nil_append, List.cons.injEq] at hc
    rw [hc.1]
    exact Class.GetMethod_own k name m hk
  | cons x pre ih =>
    intro c hc hpre
    rw [Class.chain_eq] at hc
    simp only [List.cons_append, List.cons.injEq] at hc
    obtain ⟨hx, htail⟩ := hc
    subst hx
    have hnd : ¬ c.declares name := hpre c (by simp)
    have hf : c.methods_.find? (fun x => x.name == name) = none := by
      cases hfind : c.methods_.find? (fun x => x.name == name) with
      | none => rfl
      | some y => exact absurd ((Class.declares_iff_find c name).mpr ⟨y, hfind⟩) hnd
    rw [Class.GetMethod_miss c name hf]
    cases hp : c.parent_ with
    | none =>
      rw [hp] at htail
      simp at htail
    | some p =>
      rw [hp] at htail
      exact ih p htail (fun y hy => hpre y (by simp [hy]))

/-- C19. The arity is checked against the nearest declaration only. When the nearest class
of the chain of the instance that declares the name declares it with a number of parameters
different from the number of arguments, `HasMethod` is false and `Call` raises "No such
method" without changing the state, whatever the farther ancestors declare, also when one of
them declares the name with exactly that many parameters. -/
theorem arity_checked_against_nearest (Execute : Executor Stmt Ctx)
    (self : ClassInstance Stmt) (name : String) (args : List (ObjectHolder Stmt))
    (w : World Stmt Ctx) (pre post : List (Class Stmt)) (k : Class Stmt) (m : Method Stmt)
    (hchain : self.cls_.chain = pre ++ k :: post)
    (hpre : ∀ x ∈ pre, ¬ x.declares name)
    (hk : k.methods_.find? (fun x => x.name == name) = some m)
    (hne : args.length ≠ m.formal_params.length) :
    self.cls_.GetMethod name = some m ∧
    self.HasMethod name args.length = false ∧
    self.Call Execute name args w = (.error (.runtime_error "No such method"), w) := by
  have hg := Class.GetMethod_of_chain name k post m hk pre self.cls_ hchain hpre
  have hh : self.HasMethod name args.length = false := by
    rw [ClassInstance.HasMethod_eq, hg]
    simpa using fun e : m.formal_params.length = args.length => hne e.symm
  exact ⟨hg, hh, ClassInstance.Call_of_not_HasMethod Execute self name args w hh⟩

/-- C19 on the sample class Circle(Shape): Circle declares `area(r)` and Shape declares
`area(w, h)`; with two arguments `HasMethod` is false and `Call` raises, although the
ancestor has a two-parameter `area`; no body is executed. -/
theorem arity_checked_against_nearest_witness :
    Sample.Shape.GetMethod "area" = some ⟨"area", ["w", "h"], .returnNumber 6⟩ ∧
    Sample.circle.HasMethod "area" 2 = false ∧
    Sample.circle.Call (Sample.Execute 1) "area" [ObjectHolder.None, ObjectHolder.None]
      Sample.w0 = (.error (.runtime_error "No such method"), Sample.w0) :=
  ⟨by decide,
   (arity_checked_against_nearest (Sample.Execute 1) Sample.circle "area"
      [ObjectHolder.None, ObjectHolder.None] Sample.w0 [] [Sample.Shape] Sample.Circle
      ⟨"area", ["r"], .returnNumber 3⟩ rfl (by simp) rfl (by decide)).2⟩

end NearestArity

end runtime

namespace parse

/-! ## Token assertions -/

section Assertions

/-- The token of a type and content is of that type. -/
theorem Token.type_of (T : token_type) (v : Payload T) : (Token.of T v).type = T := by
  cases T <;> rfl

/-- Every token is the token of its type with some content. -/
theorem Token.eq_of_type (t : Token) : ∃ v : Payload t.type, t = Token.of t.type v := by
  cases t <;> first | exact ⟨(), rfl⟩ | exact ⟨_, rfl⟩

/-- A token holds the struct of a type with some content exactly when it is the token of
that type and content. -/
theorem Token.TryAs_eq_some_iff (t : Token) (T : token_type) (v : Payload T) :
    t.TryAs T = some v ↔ t = Token.of T v := by
  constructor
  · cases t <;> cases T <;> intro h <;> cases h <;> rfl
  · intro h
    subst h
    cases T <;> rfl

/-- A token holds no struct of a type exactly when its alternative is another type. -/
theorem Token.TryAs_eq_none_iff (t : Token) (T : token_type) :
    t.TryAs T = none ↔ t.type ≠ T := by
  constructor
  · intro h ht
    subst ht
    obtain ⟨v, hv⟩ := Token.eq_of_type t
    rw [(Token.TryAs_eq_some_iff t t.type v).mpr hv] at h
    cases h
  · intro hne
    cases h : t.TryAs T with
    | none => rfl
    | some v =>
      have := (Token.TryAs_eq_some_iff t T v).mp h
      exact absurd (this ▸ Token.type_of T v) hne

/-- `Is<T>` tells the alternative of the token. -/
theorem Token.Is_iff (t : Token) (T : token_type) : t.Is T = true ↔ t.type = T := by
  simp [Token.Is]

/-- `Expect<T>()` in terms of `TryAs<T>`. -/
theorem Lexer.Expect_eq (l : Lexer) (T : token_type) :
    l.Expect T =
      match l.current_token_.TryAs T with
      | some v => (.ok v, l)
      | none => (.error ⟨"Wrong expected type"⟩, l) := by
  unfold Lexer.Expect
  cases h : l.current_token_.TryAs T with
  | some v =>
    have ht : l.current_token_.type = T := by
      by_contra hne
      rw [(Token.TryAs_eq_none_iff _ _).mpr hne] at h
      cases h
    simp [Token.Is, ht]
  | none =>
    have ht := (Token.TryAs_eq_none_iff _ _).mp h
    simp [Token.Is, ht]

/-- Both forms of `Expect` pass the state through. -/
theorem Expect_state (l : Lexer) (T : token_type) {U : Type} (ne : Payload T → U → Bool)
    (value : U) : (l.Expect T).2 = l ∧ (l.ExpectValue T ne value).2 = l := by
  constructor
  · rw [Lexer.Expect_eq]; cases l.current_token_.TryAs T <;> rfl
  · unfold Lexer.ExpectValue
    cases l.current_token_.TryAs T with
    | none => rfl
    | some tv => cases h : ne tv value <;> simp [h]

/-- C12. `Lexer::ExpectNext<T>()` and `ExpectNext<T>(value)` have exactly the result and the
final state of one `NextToken()` call followed by `Expect<T>()`, respectively
`Expect<T>(value)`, on the state that call left, for every behaviour of `NextToken` and for a
value of any type; an error of `NextToken` is passed on. The final state is the one left by
the single `NextToken` call, whether the assertion holds or fails: exactly one token is
consumed. -/
theorem ExpectNext_is_NextToken_then_Expect
    (next : Lexer → Except LexerError Token × Lexer) (l : Lexer) (T : token_type)
    (U : Type) (ne : Payload T → U → Bool) (value : U) :
    (∀ t l1, next l = (.ok t, l1) →
      l.ExpectNext next T = l1.Expect T ∧
      l.ExpectNextValue next T ne value = l1.ExpectValue T ne value) ∧
    (∀ e l1, next l = (.error e, l1) →
      l.ExpectNext next T = (.error e, l1) ∧
      l.ExpectNextValue next T ne value = (.error e, l1)) ∧
    (l.ExpectNext next T).2 = (next l).2 ∧
    (l.ExpectNextValue next T ne value).2 = (next l).2 := by
  have hE : ∀ l1 : Lexer, (l1.Expect T).2 = l1 := fun l1 =>
    (Expect_state l1 T ne value).1
  have hV : ∀ l1 : Lexer, (l1.ExpectValue T ne value).2 = l1 := fun l1 =>
    (Expect_state l1 T ne value).2
  refine ⟨?_, ?_, ?_, ?_⟩
  · intro t l1 h
    simp [Lexer.ExpectNext, Lexer.ExpectNextValue, h]
  · intro e l1 h
    simp [Lexer.ExpectNext, Lexer.ExpectNextValue, h]
  · unfold Lexer.ExpectNext
    rcases next l with ⟨e | t, l1⟩
    · rfl
    · exact hE l1
  · unfold Lexer.ExpectNextValue
    rcases next l with ⟨e | t, l1⟩
    · rfl
    · exact hV l1

/-- C12 with the lexer on the text `x = 1`: `ExpectNext<Id>()` returns x, `ExpectNext<Number>()`
raises; in both cases the state left is the one after the first `NextToken()`, whose current
token is Id(x). -/
theorem ExpectNext_is_NextToken_then_Expect_witness :
    ((Lexer.new "x = 1").ExpectNext Lexer.NextToken .Id).1 = .ok "x" ∧
    ((Lexer.new "x = 1").ExpectNext Lexer.NextToken .Number).1 =
      .error ⟨"Wrong expected type"⟩ ∧
    ((Lexer.new "x = 1").ExpectNext Lexer.NextToken .Number).2 =
      (Lexer.new "x = 1").NextToken.2 ∧
    ((Lexer.new "x = 1").ExpectNext Lexer.NextToken .Number).2.CurrentToken = .Id "x" :=
  ⟨rfl, rfl,
   (ExpectNext_is_NextToken_then_Expect Lexer.NextToken (Lexer.new "x = 1") .Number Int
      (Payload.ne .Number) 0).2.2.1,
   rfl⟩

end Assertions

end parse
